import Mathlib

/-! WSJT-X wire codec (`pkg/wsjtx/protocol.go`) and bridge (`main.go`).

A shallow embedding of the decoder and encoder of the WSJT-X UDP protocol, and
of the steps of the bridge between the UDP socket and the WebSocket sessions.

* a byte is a `Fin 256`; a Go `string` is the list of its bytes (Go strings are
  arbitrary byte sequences, nothing in the codec validates UTF-8);
* `uint32`, `uint64`, `uint8` values are `Nat`, `int32` values are `Int`, and a
  `float64` is carried as its 64 IEEE-754 bits (`math.Float64bits`), a `Nat`;
* the `io.Reader` of a `Decoder` is a `bytes.Reader`: its state is the list of
  bytes not read yet; the `io.Writer` of an `Encoder` is a `bytes.Buffer`: its
  state is the list of bytes written so far;
* a Go result `(v, err)` is an `Except Error`, paired with the stream state
  after the call, so that what was consumed or written is visible on failure too.
-/

namespace Wsjtx

/-- One octet of a datagram. -/
abbrev Byte := Fin 256

/-- The low eight bits of a number, as a byte. -/
def byteOf (n : Nat) : Byte := ⟨n % 256, Nat.mod_lt _ (by decide)⟩

def MagicNumber : Nat := 0xadbccbda
def Schema2 : Nat := 2
def Schema3 : Nat := 3

def MsgHeartbeat : Nat := 0
def MsgStatus : Nat := 1
def MsgDecode : Nat := 2
def MsgClear : Nat := 3
def MsgReply : Nat := 4
def MsgQSOLogged : Nat := 5
def MsgClose : Nat := 6
def MsgReplay : Nat := 7
def MsgHaltTx : Nat := 8
def MsgFreeText : Nat := 9
def MsgWSPRDecode : Nat := 10
def MsgLocation : Nat := 11
def MsgLoggedADIF : Nat := 12
def MsgHighlightCallsign : Nat := 13
def MsgSwitchConfiguration : Nat := 14
def MsgConfigure : Nat := 15
def MsgAnnotationInfo : Nat := 16

/-- The errors the codec returns: the two short-read errors of `io.ReadFull`
(`io.EOF` when nothing could be read, `io.ErrUnexpectedEOF` when only a part
could), and the three `fmt.Errorf` errors of `protocol.go`. -/
inductive Error where
  | EOF
  | ErrUnexpectedEOF
  | invalidMagic (magic : Nat)
  | unsupportedType (msgType : Nat)
  | unsupportedEncoding (goType : String)
  deriving DecidableEq, Repr

deriving instance DecidableEq for Except

/-- A short read: `io.EOF` or `io.ErrUnexpectedEOF`. -/
def Error.isShortRead : Error → Bool
  | .EOF => true
  | .ErrUnexpectedEOF => true
  | _ => false

structure BaseMessage where
  Id : List Byte
  deriving DecidableEq, Repr

structure HeartbeatMessage extends BaseMessage where
  MaxSchema : Nat
  Version : List Byte
  Revision : List Byte
  deriving DecidableEq, Repr

structure StatusMessage extends BaseMessage where
  DialFrequency : Nat
  Mode : List Byte
  DXCall : List Byte
  Report : List Byte
  TxMode : List Byte
  TxEnabled : Bool
  Transmitting : Bool
  Decoding : Bool
  RxDF : Nat
  TxDF : Nat
  DECall : List Byte
  DEGrid : List Byte
  DXGrid : List Byte
  TxWatchdog : Bool
  SubMode : List Byte
  FastMode : Bool
  SpecialOpMode : Nat
  FrequencyTolerance : Nat
  TRPeriod : Nat
  ConfigName : List Byte
  TxMessage : List Byte
  deriving DecidableEq, Repr

structure DecodeMessage extends BaseMessage where
  New : Bool
  Time : Nat
  SNR : Int
  DeltaTime : Nat
  DeltaFrequency : Nat
  Mode : List Byte
  Message : List Byte
  LowConfidence : Bool
  OffAir : Bool
  deriving DecidableEq, Repr

structure ReplyMessage extends BaseMessage where
  Time : Nat
  SNR : Int
  DeltaTime : Nat
  DeltaFreq : Nat
  Mode : List Byte
  Message : List Byte
  LowConf : Bool
  Modifiers : Nat
  deriving DecidableEq, Repr

structure HaltTxMessage extends BaseMessage where
  AutoTxOnly : Bool
  deriving DecidableEq, Repr

/-- The values of the `Message` interface that the repository builds: a pointer
to one of the five message structs (the decoders return such pointers and
`main.go` passes such pointers to `Encode`). -/
inductive Message where
  | heartbeat (m : HeartbeatMessage)
  | status (m : StatusMessage)
  | decode (m : DecodeMessage)
  | reply (m : ReplyMessage)
  | haltTx (m : HaltTxMessage)
  deriving DecidableEq, Repr

/-- The method `Type()` of each message struct. -/
def Message.Type : Message → Nat
  | .heartbeat _ => MsgHeartbeat
  | .status _ => MsgStatus
  | .decode _ => MsgDecode
  | .reply _ => MsgReply
  | .haltTx _ => MsgHaltTx

/-- A call on a byte stream: from the stream state before the call to the
result of the call and the stream state after it. -/
def Op (α : Type) : Type := List Byte → Except Error α × List Byte

/-- Sequencing with Go's `if err != nil { return ..., err }`. -/
def Op.bind {α β : Type} (x : Op α) (f : α → Op β) : Op β := fun s =>
  match x s with
  | (.ok a, s') => f a s'
  | (.error e, s') => (.error e, s')

instance : Monad Op where
  pure a := fun s => (.ok a, s)
  bind := Op.bind

/-- Return an error without touching the stream. -/
def Op.fail {α : Type} (e : Error) : Op α := fun s => (.error e, s)

/-- A decoder method: the stream state is the unread part of the datagram. -/
abbrev Decoder := Op

/-- An encoder method: the stream state is the content of the output buffer. -/
abbrev Encoder := Op

/-! ## Decoder -/

/-- Big-endian value of a byte sequence (`binary.BigEndian.Uint32`, `Uint64`). -/
def beNat (bs : List Byte) : Nat := bs.foldl (fun acc b => acc * 256 + b.val) 0

/-- The function `io.ReadFull(d.r, buf)` with `len(buf) = n` on a `bytes.Reader`:
all `n` bytes or an error; a short read drains the reader, and the error is
`io.EOF` when no byte was left and `io.ErrUnexpectedEOF` otherwise. -/
def readFull (n : Nat) : Decoder (List Byte) := fun r =>
  if n ≤ r.length then (.ok (r.take n), r.drop n)
  else if r = [] then (.error .EOF, []) else (.error .ErrUnexpectedEOF, [])

/-- The call `binary.Read(d.r, binary.BigEndian, &v)` for `v` a `uint32`. -/
def readUint32 : Decoder Nat := do
  let bs ← readFull 4
  pure (beNat bs)

/-- The call `binary.Read(d.r, binary.BigEndian, &v)` for `v` a `uint64`. -/
def readUint64 : Decoder Nat := do
  let bs ← readFull 8
  pure (beNat bs)

/-- The call `binary.Read(d.r, binary.BigEndian, &v)` for `v` a `uint8`. -/
def readUint8 : Decoder Nat := do
  let bs ← readFull 1
  pure (beNat bs)

/-- The `int32` with the given 32-bit pattern (two's complement). -/
def toInt32 (u : Nat) : Int := if u < 2 ^ 31 then (u : Int) else (u : Int) - 2 ^ 32

/-- The call `binary.Read(d.r, binary.BigEndian, &v)` for `v` an `int32`. -/
def readInt32 : Decoder Int := do
  let bs ← readFull 4
  pure (toInt32 (beNat bs))

/-- The call `binary.Read(d.r, binary.BigEndian, &v)` for `v` a `float64`:
the eight bytes are the IEEE-754 bits of the value. -/
def readFloat64 : Decoder Nat := do
  let bs ← readFull 8
  pure (beNat bs)

/-- The method `Decoder.readString`. -/
def readString : Decoder (List Byte) := do
  let length ← readUint32
  if length = 0xffffffff then pure []
  else if length = 0 then pure []
  else readFull length

/-- The method `Decoder.readBool`: `binary.Read` into a `bool` sets it to
`b != 0` for the single byte `b` read. -/
def readBool : Decoder Bool := do
  let bs ← readFull 1
  pure (decide (beNat bs ≠ 0))

/-- The method `Decoder.readQTime`. -/
def readQTime : Decoder Nat := do
  let msecs ← readUint32
  pure msecs

/-- The method `Decoder.decodeHeartbeat`. -/
def decodeHeartbeat (base : BaseMessage) (_schema : Nat) : Decoder HeartbeatMessage := do
  let maxSchema ← readUint32
  let version ← readString
  let revision ← readString
  pure { toBaseMessage := base, MaxSchema := maxSchema, Version := version, Revision := revision }

/-- The method `Decoder.decodeStatus`. -/
def decodeStatus (base : BaseMessage) (_schema : Nat) : Decoder StatusMessage := do
  let dialFrequency ← readUint64
  let mode ← readString
  let dxCall ← readString
  let report ← readString
  let txMode ← readString
  let txEnabled ← readBool
  let transmitting ← readBool
  let decoding ← readBool
  let rxDF ← readUint32
  let txDF ← readUint32
  let deCall ← readString
  let deGrid ← readString
  let dxGrid ← readString
  let txWatchdog ← readBool
  let subMode ← readString
  let fastMode ← readBool
  let specialOpMode ← readUint8
  let frequencyTolerance ← readUint32
  let trPeriod ← readUint32
  let configName ← readString
  let txMessage ← readString
  pure { toBaseMessage := base, DialFrequency := dialFrequency, Mode := mode, DXCall := dxCall,
         Report := report, TxMode := txMode, TxEnabled := txEnabled,
         Transmitting := transmitting, Decoding := decoding, RxDF := rxDF, TxDF := txDF,
         DECall := deCall, DEGrid := deGrid, DXGrid := dxGrid, TxWatchdog := txWatchdog,
         SubMode := subMode, FastMode := fastMode, SpecialOpMode := specialOpMode,
         FrequencyTolerance := frequencyTolerance, TRPeriod := trPeriod,
         ConfigName := configName, TxMessage := txMessage }

/-- The method `Decoder.decodeDecode`. -/
def decodeDecode (base : BaseMessage) (_schema : Nat) : Decoder DecodeMessage := do
  let new ← readBool
  let time ← readQTime
  let snr ← readInt32
  let deltaTime ← readFloat64
  let deltaFrequency ← readUint32
  let mode ← readString
  let message ← readString
  let lowConfidence ← readBool
  let offAir ← readBool
  pure { toBaseMessage := base, New := new, Time := time, SNR := snr, DeltaTime := deltaTime,
         DeltaFrequency := deltaFrequency, Mode := mode, Message := message,
         LowConfidence := lowConfidence, OffAir := offAir }

/-- The method `Decoder.Decode`. -/
def Decode : Decoder Message := do
  let magic ← readUint32
  if magic ≠ MagicNumber then Op.fail (.invalidMagic magic)
  else do
    let schema ← readUint32
    let msgType ← readUint32
    let id ← readString
    let base : BaseMessage := { Id := id }
    if msgType = MsgHeartbeat then do
      let m ← decodeHeartbeat base schema
      pure (.heartbeat m)
    else if msgType = MsgStatus then do
      let m ← decodeStatus base schema
      pure (.status m)
    else if msgType = MsgDecode then do
      let m ← decodeDecode base schema
      pure (.decode m)
    else Op.fail (.unsupportedType msgType)

/-- The function `ParsePacket`: `Decode` on a fresh reader over the datagram. -/
def ParsePacket (data : List Byte) : Except Error Message := (Decode data).1

/-- The number of bytes of the datagram that `ParsePacket` has read. -/
def consumed (data : List Byte) : Nat := data.length - (Decode data).2.length

/-! ## Encoder -/

/-- Big-endian layout of the low `k` bytes of a number
(`binary.BigEndian.PutUint32` for `k = 4`, `PutUint64` for `k = 8`). -/
def putBE : Nat → Nat → List Byte
  | 0, _ => []
  | k + 1, n => putBE k (n / 256) ++ [byteOf n]

/-- The method `Write` of a `bytes.Buffer`: appends, never fails. -/
def write (bs : List Byte) : Encoder Unit := fun w => (.ok (), w ++ bs)

/-- The call `binary.Write(e.w, binary.BigEndian, v)` for `v` a `uint32`. -/
def writeUint32 (v : Nat) : Encoder Unit := write (putBE 4 v)

/-- The call `binary.Write(e.w, binary.BigEndian, v)` for `v` a `uint8`. -/
def writeUint8 (v : Nat) : Encoder Unit := write (putBE 1 v)

/-- The 32-bit pattern of an `int32` (two's complement). -/
def ofInt32 (v : Int) : Nat := (v % 2 ^ 32).toNat

/-- The call `binary.Write(e.w, binary.BigEndian, v)` for `v` an `int32`. -/
def writeInt32 (v : Int) : Encoder Unit := write (putBE 4 (ofInt32 v))

/-- The call `binary.Write(e.w, binary.BigEndian, v)` for `v` a `float64`,
given by its IEEE-754 bits. -/
def writeFloat64 (bits : Nat) : Encoder Unit := write (putBE 8 bits)

/-- The method `Encoder.writeString`; `uint32(len(s))` keeps the low 32 bits
of the length. -/
def writeString (s : List Byte) : Encoder Unit :=
  if s = [] then writeUint32 0
  else do
    let length := s.length % 2 ^ 32
    writeUint32 length
    write s

/-- The method `Encoder.writeBool`: `binary.Write` of a `bool` writes the byte
1 for true and 0 for false. -/
def writeBool (b : Bool) : Encoder Unit := write [if b then 1 else 0]

/-- The method `Encoder.writeHeader`. -/
def writeHeader (msgType : Nat) (id : List Byte) (schema : Nat) : Encoder Unit := do
  writeUint32 MagicNumber
  writeUint32 schema
  writeUint32 msgType
  writeString id

/-- The method `Encoder.encodeHeartbeat`. -/
def encodeHeartbeat (m : HeartbeatMessage) : Encoder Unit := do
  writeHeader MsgHeartbeat m.Id Schema2
  writeUint32 m.MaxSchema
  writeString m.Version
  writeString m.Revision

/-- The method `Encoder.encodeReply`. -/
def encodeReply (m : ReplyMessage) : Encoder Unit := do
  writeHeader MsgReply m.Id Schema2
  writeUint32 m.Time
  writeInt32 m.SNR
  writeFloat64 m.DeltaTime
  writeUint32 m.DeltaFreq
  writeString m.Mode
  writeString m.Message
  writeBool m.LowConf
  writeUint8 m.Modifiers

/-- The method `Encoder.encodeHaltTx`. -/
def encodeHaltTx (m : HaltTxMessage) : Encoder Unit := do
  writeHeader MsgHaltTx m.Id Schema2
  writeBool m.AutoTxOnly

/-- The method `Encoder.Encode`; the `default` case formats the dynamic type
of the message with `%T`. -/
def Encode (msg : Message) : Encoder Unit :=
  match msg with
  | .heartbeat m => encodeHeartbeat m
  | .reply m => encodeReply m
  | .haltTx m => encodeHaltTx m
  | .status _ => Op.fail (.unsupportedEncoding "*wsjtx.StatusMessage")
  | .decode _ => Op.fail (.unsupportedEncoding "*wsjtx.DecodeMessage")

/-- The five message structs of the package. -/
inductive Variant where
  | Heartbeat
  | Status
  | Decode
  | Reply
  | HaltTx
  deriving DecidableEq, Repr

/-- The struct of a message. -/
def Message.variant : Message → Variant
  | .heartbeat _ => .Heartbeat
  | .status _ => .Status
  | .decode _ => .Decode
  | .reply _ => .Reply
  | .haltTx _ => .HaltTx

/-- The name of a struct as `%T` prints it. -/
def Variant.goType : Variant → String
  | .Heartbeat => "wsjtx.HeartbeatMessage"
  | .Status => "wsjtx.StatusMessage"
  | .Decode => "wsjtx.DecodeMessage"
  | .Reply => "wsjtx.ReplyMessage"
  | .HaltTx => "wsjtx.HaltTxMessage"

/-- Any value that a caller can pass to `Encode` as a `Message`. The method
`Type()` of each struct has a value receiver, so the interface holds a struct
by value as well as a pointer to it:
`pointer msg` is a non-nil pointer to the struct with the fields of `msg`,
`value msg` is that struct itself, passed by value,
`nilPointer v` is the nil pointer to the struct `v`, and
`other goType` is a value of any other dynamic type, named as `%T` prints it
(`<nil>` for the nil interface). -/
inductive MessageValue where
  | pointer (msg : Message)
  | value (msg : Message)
  | nilPointer (variant : Variant)
  | other (goType : String)

/-- The method `Encoder.Encode` on any value of the interface, `none` standing
for a run-time panic. The type switch has the three cases `*HeartbeatMessage`,
`*ReplyMessage` and `*HaltTxMessage`; every other dynamic type, a struct passed
by value included, takes the `default` case. A nil pointer of one of the three
types enters its case, where reading `m.Id` panics before anything is
written. -/
def EncodeValue : MessageValue → List Byte → Option (Except Error Unit × List Byte)
  | .pointer msg, w => some (Encode msg w)
  | .value msg, w => some (.error (.unsupportedEncoding msg.variant.goType), w)
  | .nilPointer .Heartbeat, _ => none
  | .nilPointer .Reply, _ => none
  | .nilPointer .HaltTx, _ => none
  | .nilPointer .Status, w => some (.error (.unsupportedEncoding "*wsjtx.StatusMessage"), w)
  | .nilPointer .Decode, w => some (.error (.unsupportedEncoding "*wsjtx.DecodeMessage"), w)
  | .other goType, w => some (.error (.unsupportedEncoding goType), w)

/-! ## Frame layouts and properties of decoders -/

/-- The layout `str(s)` of a string field: the 4-byte big-endian length of
`s` followed by the bytes of `s`. -/
def str (s : List Byte) : List Byte := putBE 4 s.length ++ s

/-- The byte of a boolean field: 01 for true, 00 for false. -/
def boolByte (b : Bool) : Byte := if b then 1 else 0

/-- A string field as it may stand on the wire: an empty string is the null
mark `FF FF FF FF` when `null` is set, and every other field is `str s`. -/
def wstr (null : Bool) (s : List Byte) : List Byte :=
  if null = true ∧ s = [] then [0xff, 0xff, 0xff, 0xff] else str s

/-- A Heartbeat frame carrying the fields of `m`; `nulls i` tells whether the
`i`-th string field, when empty, is written as the null string. -/
def heartbeatFrame (nulls : Nat → Bool) (schema : Nat) (m : HeartbeatMessage) : List Byte :=
  putBE 4 MagicNumber ++ putBE 4 schema ++ putBE 4 0 ++ wstr (nulls 0) m.Id ++
    putBE 4 m.MaxSchema ++ wstr (nulls 1) m.Version ++ wstr (nulls 2) m.Revision

/-- A Decode frame carrying the fields of `m`, with `nulls` as in `heartbeatFrame`. -/
def decodeFrame (nulls : Nat → Bool) (schema : Nat) (m : DecodeMessage) : List Byte :=
  putBE 4 MagicNumber ++ putBE 4 schema ++ putBE 4 2 ++ wstr (nulls 0) m.Id ++
    [boolByte m.New] ++ putBE 4 m.Time ++ putBE 4 (ofInt32 m.SNR) ++ putBE 8 m.DeltaTime ++
    putBE 4 m.DeltaFrequency ++ wstr (nulls 1) m.Mode ++ wstr (nulls 2) m.Message ++
    [boolByte m.LowConfidence] ++ [boolByte m.OffAir]

/-- A Status frame carrying the fields of `m`, with `nulls` as in `heartbeatFrame`. -/
def statusFrame (nulls : Nat → Bool) (schema : Nat) (m : StatusMessage) : List Byte :=
  putBE 4 MagicNumber ++ putBE 4 schema ++ putBE 4 1 ++ wstr (nulls 0) m.Id ++
    putBE 8 m.DialFrequency ++ wstr (nulls 1) m.Mode ++ wstr (nulls 2) m.DXCall ++
    wstr (nulls 3) m.Report ++ wstr (nulls 4) m.TxMode ++ [boolByte m.TxEnabled] ++
    [boolByte m.Transmitting] ++ [boolByte m.Decoding] ++ putBE 4 m.RxDF ++ putBE 4 m.TxDF ++
    wstr (nulls 5) m.DECall ++ wstr (nulls 6) m.DEGrid ++ wstr (nulls 7) m.DXGrid ++
    [boolByte m.TxWatchdog] ++ wstr (nulls 8) m.SubMode ++ [boolByte m.FastMode] ++
    putBE 1 m.SpecialOpMode ++ putBE 4 m.FrequencyTolerance ++ putBE 4 m.TRPeriod ++
    wstr (nulls 9) m.ConfigName ++ wstr (nulls 10) m.TxMessage

/-- A string is shorter than `2^32 - 1` bytes: its length fits the 4-byte
length of a string field and is not the null mark. -/
abbrev Fits (s : List Byte) : Prop := s.length < 2 ^ 32 - 1

/-- Every string of a Heartbeat message is shorter than `2^32 - 1` bytes. -/
abbrev HeartbeatMessage.StringsFit (m : HeartbeatMessage) : Prop :=
  Fits m.Id ∧ Fits m.Version ∧ Fits m.Revision

/-- Every string of a Decode message is shorter than `2^32 - 1` bytes. -/
abbrev DecodeMessage.StringsFit (m : DecodeMessage) : Prop :=
  Fits m.Id ∧ Fits m.Mode ∧ Fits m.Message

/-- Every string of a Status message is shorter than `2^32 - 1` bytes. -/
abbrev StatusMessage.StringsFit (m : StatusMessage) : Prop :=
  Fits m.Id ∧ Fits m.Mode ∧ Fits m.DXCall ∧ Fits m.Report ∧ Fits m.TxMode ∧ Fits m.DECall ∧
    Fits m.DEGrid ∧ Fits m.DXGrid ∧ Fits m.SubMode ∧ Fits m.ConfigName ∧ Fits m.TxMessage

/-- Every string of a Reply message is shorter than `2^32 - 1` bytes. -/
abbrev ReplyMessage.StringsFit (m : ReplyMessage) : Prop :=
  Fits m.Id ∧ Fits m.Mode ∧ Fits m.Message

/-- The numeric fields of a Decode message are values of their Go types
(`uint32`, `int32`, the 64 bits of a `float64`). -/
abbrev DecodeMessage.InRange (m : DecodeMessage) : Prop :=
  m.Time < 2 ^ 32 ∧ -2 ^ 31 ≤ m.SNR ∧ m.SNR < 2 ^ 31 ∧ m.DeltaTime < 2 ^ 64 ∧
    m.DeltaFrequency < 2 ^ 32

/-- The numeric fields of a Status message are values of their Go types
(`uint64`, `uint32`, `uint8`). -/
abbrev StatusMessage.InRange (m : StatusMessage) : Prop :=
  m.DialFrequency < 2 ^ 64 ∧ m.RxDF < 2 ^ 32 ∧ m.TxDF < 2 ^ 32 ∧ m.SpecialOpMode < 2 ^ 8 ∧
    m.FrequencyTolerance < 2 ^ 32 ∧ m.TRPeriod < 2 ^ 32

/-- A decoder is framed when every successful run reads a block `c` at the
front of its input, gives the same result whatever follows `c`, and fails with
a short read, draining the reader, on every proper initial segment of `c`. -/
def Framed {α : Type} (d : Decoder α) : Prop :=
  ∀ b a r, d b = (.ok a, r) →
    ∃ c, b = c ++ r ∧ (∀ t, d (c ++ t) = (.ok a, t)) ∧
      ∀ p, p <+: c → p ≠ c → ∃ e, d p = (.error e, []) ∧ e.isShortRead = true

/-- A decoder that has read at least `k` bytes whenever it succeeds. -/
def ReadsAtLeast {α : Type} (k : Nat) (d : Decoder α) : Prop :=
  ∀ b a r, d b = (.ok a, r) → r.length + k ≤ b.length

/-! ## Sample messages -/

/-- A Heartbeat message: sender id "A", MaxSchema 3, Version "2.6", no revision. -/
def sampleHeartbeat : HeartbeatMessage :=
  { Id := [0x41], MaxSchema := 3, Version := [0x32, 0x2E, 0x36], Revision := [] }

/-- The Decode message of the end-to-end scenario: sender id "WSJT-X", Time
43200000, SNR -10, DeltaTime 0.2 (bits `3FC999999999999A`), DeltaFrequency 1500,
Mode "FT8", Message "CQ TEST K1ABC". -/
def sampleDecode : DecodeMessage :=
  { Id := [0x57, 0x53, 0x4A, 0x54, 0x2D, 0x58], New := true, Time := 43200000, SNR := -10,
    DeltaTime := 0x3FC999999999999A, DeltaFrequency := 1500, Mode := [0x46, 0x54, 0x38],
    Message := [0x43, 0x51, 0x20, 0x54, 0x45, 0x53, 0x54, 0x20, 0x4B, 0x31, 0x41, 0x42, 0x43],
    LowConfidence := false, OffAir := false }

/-- A Status message: sender id "W", dial frequency 14074000, Mode and TxMode
"FT8", DXCall "K1", DECall "W1", DEGrid "FN", ConfigName "D", the other strings
empty, FrequencyTolerance `0xFFFFFFFF`. -/
def sampleStatus : StatusMessage :=
  { Id := [0x57], DialFrequency := 14074000, Mode := [0x46, 0x54, 0x38],
    DXCall := [0x4B, 0x31], Report := [], TxMode := [0x46, 0x54, 0x38],
    TxEnabled := true, Transmitting := false, Decoding := true,
    RxDF := 1500, TxDF := 1200, DECall := [0x57, 0x31],
    DEGrid := [0x46, 0x4E], DXGrid := [], TxWatchdog := false,
    SubMode := [], FastMode := false, SpecialOpMode := 0,
    FrequencyTolerance := 4294967295, TRPeriod := 15,
    ConfigName := [0x44], TxMessage := [] }

/-- A Reply message: sender id "WEB", Time 43200000, SNR -10, DeltaTime 0.2,
DeltaFreq 1500, Mode "FT8", empty Message, LowConf set, Modifiers 2. -/
def sampleReply : ReplyMessage :=
  { Id := [0x57, 0x45, 0x42], Time := 43200000, SNR := -10,
    DeltaTime := 0x3FC999999999999A, DeltaFreq := 1500, Mode := [0x46, 0x54, 0x38],
    Message := [], LowConf := true, Modifiers := 2 }

/-! ## The bridge (`main.go`)

The goroutines of `main.go` share the client map of the hub and the last peer
address under mutexes; each of the definitions below is one critical step of
one goroutine, from the shared state before it to the shared state after it
and what the step sends. The libraries are modelled by what the code uses of
them: `encoding/json` by the value a text stands for and the way a struct is
filled from an object, a WebSocket write by whether it fails, `WriteToUDP` by
the datagram and the address it is given. -/

/-- A `*net.UDPAddr`. -/
structure UDPAddr where
  IP : List Byte
  Port : Nat
  Zone : String
  deriving DecidableEq, Repr

/-- A `*websocket.Conn`, named by a number. -/
abbrev Conn := Nat

/-- The bytes of an ASCII string constant of the source. -/
def ascii (s : String) : List Byte := s.data.map fun c => byteOf c.toNat

/-- A JSON number literal, given by what `strconv` makes of its text: `int` is
its sign (true for a leading minus) and magnitude when the literal has neither
fraction nor exponent, the only literals `ParseUint` and `ParseInt` accept, and
`float` is the bits of the `float64` that `ParseFloat` returns, none when the
literal is out of range. -/
structure JNumber where
  int : Option (Bool × Nat)
  float : Option Nat

/-- A JSON value as `encoding/json` sees it: object members in the order of
the text, keys and strings already unquoted. -/
inductive JSON where
  | null
  | bool (b : Bool)
  | number (n : JNumber)
  | string (s : List Byte)
  | array (items : List JSON)
  | object (members : List (String × JSON))

/-- The function `foldRune` of `encoding/json` on the runes that can fold to an
ASCII rune: a lower-case ASCII letter folds to its upper case, the Kelvin sign
to `K` and the long s to `S`; other runes never fold to ASCII. -/
def foldRune (c : Char) : Char :=
  if 97 ≤ c.toNat ∧ c.toNat ≤ 122 then Char.ofNat (c.toNat - 32)
  else if c.toNat = 0x212A then Char.ofNat 75
  else if c.toNat = 0x017F then Char.ofNat 83
  else c

/-- The function `foldName` of `encoding/json`. -/
def foldName (s : String) : String := String.mk (s.data.map foldRune)

/-- The struct field that an object key names, by the JSON names of the
fields: an exact match if there is one, else the first field whose folded name
is the folded key. -/
def findField (names : List String) (key : String) : Option String :=
  match names.find? (fun n => n = key) with
  | some n => some n
  | none => names.find? (fun n => foldName n = foldName key)

/-- A JSON value stored into a `uint32` or `uint8` field of `bits` bits. -/
def asUint (bits : Nat) : JSON → Option Nat
  | .number { int := some (false, k), float := _ } => if k < 2 ^ bits then some k else none
  | _ => none

/-- A JSON value stored into an `int32` field. -/
def asInt32 : JSON → Option Int
  | .number { int := some (neg, k), float := _ } =>
    let v : Int := if neg then -(k : Int) else (k : Int)
    if -2 ^ 31 ≤ v ∧ v < 2 ^ 31 then some v else none
  | _ => none

/-- A JSON value stored into a `float64` field. -/
def asFloat64 : JSON → Option Nat
  | .number n => n.float
  | _ => none

/-- A JSON value stored into a `string` field. -/
def asString : JSON → Option (List Byte)
  | .string s => some s
  | _ => none

/-- A JSON value stored into a `bool` field. -/
def asBool : JSON → Option Bool
  | .bool b => some b
  | _ => none

/-- The call `json.Unmarshal(text, &v)` for `v` a zeroed struct, with `store`
the storing of one object member: `none` stands for an error. An empty or
invalid text (`none`) is an error, `null` leaves the struct as it is, an object
stores its members in order and any member that does not fit its field makes
the call return an error, and every other value is an error. -/
def unmarshalStruct {σ : Type} (store : σ → String → JSON → Option σ) (zero : σ) :
    Option JSON → Option σ
  | none => none
  | some .null => some zero
  | some (.object members) =>
    members.foldl (fun acc kv => acc.bind fun d => store d kv.1 kv.2) (some zero)
  | some _ => none

/-- The struct `cmd` of the `/ws` handler, `Type_` being its field `Type`;
`Data` is `none` while the `json.RawMessage` is empty. -/
structure Command where
  Type_ : List Byte
  Data : Option JSON

/-- Storing one object member into `cmd`: `type` takes a string (`null` is
skipped), `data` keeps the raw value, whatever it is. -/
def storeCommand (cmd : Command) (key : String) (v : JSON) : Option Command :=
  if findField ["type", "data"] key = some "type" then
    match v with
    | .null => some cmd
    | .string s => some { cmd with Type_ := s }
    | _ => none
  else if findField ["type", "data"] key = some "data" then some { cmd with Data := some v }
  else some cmd

/-- The struct `d` of the case `"reply"`. -/
structure ReplyData where
  Time : Nat
  SNR : Int
  DeltaTime : Nat
  DeltaFreq : Nat
  Mode : List Byte
  Message : List Byte
  LowConf : Bool
  Modifiers : Nat

/-- The JSON names of the fields of `d` in the case `"reply"`, from their tags. -/
def replyNames : List String :=
  ["Time", "SNR", "DeltaTime", "DeltaFrequency", "Mode", "Message", "LowConfidence",
    "Modifiers"]

/-- Storing one object member into `d` in the case `"reply"`. -/
def storeReply (d : ReplyData) (key : String) (v : JSON) : Option ReplyData :=
  match v with
  | .null => some d
  | _ =>
    match findField replyNames key with
    | none => some d
    | some name =>
      if name = "Time" then (asUint 32 v).map fun x => { d with Time := x }
      else if name = "SNR" then (asInt32 v).map fun x => { d with SNR := x }
      else if name = "DeltaTime" then (asFloat64 v).map fun x => { d with DeltaTime := x }
      else if name = "DeltaFrequency" then (asUint 32 v).map fun x => { d with DeltaFreq := x }
      else if name = "Mode" then (asString v).map fun x => { d with Mode := x }
      else if name = "Message" then (asString v).map fun x => { d with Message := x }
      else if name = "LowConfidence" then (asBool v).map fun x => { d with LowConf := x }
      else (asUint 8 v).map fun x => { d with Modifiers := x }

/-- The struct `d` of the case `"halt"`. -/
structure HaltData where
  AutoTxOnly : Bool

/-- Storing one object member into `d` in the case `"halt"`. -/
def storeHalt (d : HaltData) (key : String) (v : JSON) : Option HaltData :=
  match v with
  | .null => some d
  | _ =>
    match findField ["AutoTxOnly"] key with
    | none => some d
    | some _ => (asBool v).map fun x => { d with AutoTxOnly := x }

/-- The shared state of the bridge: the keys of `hub.clients` in the order in
which a `range` visits them, and `lastAddr`. -/
structure Bridge where
  clients : List Conn
  lastAddr : Option UDPAddr
  deriving DecidableEq, Repr

/-- The switch on `cmd.Type` of the `/ws` handler: the message to encode, or
`none` when the handler logs and goes on to the next message. -/
def commandMessage (cmd : Command) : Option Message :=
  if cmd.Type_ = ascii "reply" then
    (unmarshalStruct storeReply
        { Time := 0, SNR := 0, DeltaTime := 0, DeltaFreq := 0, Mode := [], Message := [],
          LowConf := false, Modifiers := 0 } cmd.Data).map fun d =>
      .reply { Id := ascii "WSJTX-WEB", Time := d.Time, SNR := d.SNR, DeltaTime := d.DeltaTime,
               DeltaFreq := d.DeltaFreq, Mode := d.Mode, Message := d.Message,
               LowConf := d.LowConf, Modifiers := d.Modifiers }
  else if cmd.Type_ = ascii "halt" then
    (unmarshalStruct storeHalt { AutoTxOnly := false } cmd.Data).map fun d =>
      .haltTx { Id := ascii "WSJTX-WEB", AutoTxOnly := d.AutoTxOnly }
  else none

/-- One round of the read loop of the `/ws` handler for a message that was
read, given by the JSON value of its text (`none` when the text is not valid
JSON): the shared state after it and the calls of `conn.WriteToUDP` it made. -/
def handleMessage (st : Bridge) (message : Option JSON) :
    Bridge × List (List Byte × UDPAddr) :=
  match unmarshalStruct storeCommand { Type_ := [], Data := none } message with
  | none => (st, [])
  | some cmd =>
    match st.lastAddr with
    | none => (st, [])
    | some targetAddr =>
      match commandMessage cmd with
      | none => (st, [])
      | some msg =>
        match Encode msg [] with
        | (.ok _, buf) => (st, [(buf, targetAddr)])
        | (.error _, _) => (st, [])

/-- The struct `wrapper` of the UDP loop, before `json.Marshal`, `Type_` being
its field `Type`. -/
structure Envelope where
  Type_ : String
  Data : Message
  deriving DecidableEq, Repr

/-- A `float64`, given by its bits, is a NaN or an infinity: its exponent
field is all ones. -/
def isNaNOrInf (bits : Nat) : Bool := bits / 2 ^ 52 % 2 ^ 11 = 2047

/-- Whether `json.Marshal` of the wrapper of a message returns an error: it
does for a `float64` that is NaN or infinite, and `DeltaTime` is the only
`float64` of the message structs. -/
def marshalFails : Message → Bool
  | .decode m => isNaNOrInf m.DeltaTime
  | .reply m => isNaNOrInf m.DeltaTime
  | _ => false

/-- One round of the UDP loop for a datagram that `ReadFromUDP` returned
without error, `data` being `buf[:n]`: the shared state after it and the
wrapper sent on `hub.broadcast`, if any. -/
def udpReceive (st : Bridge) (data : List Byte) (remoteAddr : UDPAddr) :
    Bridge × Option Envelope :=
  let st' : Bridge := { st with lastAddr := some remoteAddr }
  match ParsePacket data with
  | .error _ => (st', none)
  | .ok msg =>
    if marshalFails msg then (st', none)
    else (st', some { Type_ := toString msg.Type, Data := msg })

/-- One round of `Hub.run` for a message taken from `hub.broadcast`: each
client of the map is written to, and deleted from the map when
`WriteMessage` fails. Returns the keys of the map afterwards and the writes
made, in order. -/
def hubRun {μ : Type} (fails : Conn → Bool) (message : μ) (clients : List Conn) :
    List Conn × List (Conn × μ) :=
  clients.foldl
    (fun acc client =>
      if fails client then (acc.1.erase client, acc.2 ++ [(client, message)])
      else (acc.1, acc.2 ++ [(client, message)]))
    (clients, [])

/-- A datagram handled by the UDP loop and then, if a wrapper was sent on
`hub.broadcast`, by `Hub.run`: the shared state afterwards and the WebSocket
writes made. -/
def processDatagram (fails : Conn → Bool) (st : Bridge) (data : List Byte)
    (remoteAddr : UDPAddr) : Bridge × List (Conn × Envelope) :=
  match udpReceive st data remoteAddr with
  | (st', none) => (st', [])
  | (st', some wrapper) =>
    ({ st' with clients := (hubRun fails wrapper st'.clients).1 },
      (hubRun fails wrapper st'.clients).2)

/-- A peer address: 127.0.0.1, port 40123. -/
def samplePeer : UDPAddr := { IP := [127, 0, 0, 1], Port := 40123, Zone := "" }

/-- A bridge with one session and `samplePeer` as the last peer. -/
def sampleBridge : Bridge := { clients := [7], lastAddr := some samplePeer }

/-- The data object `{"Id":"EVIL","AutoTxOnly":true}`. -/
def sampleHaltData : JSON :=
  .object [("Id", .string (ascii "EVIL")), ("AutoTxOnly", .bool true)]

/-- The halt command `{"type":"halt","data":{"Id":"EVIL","AutoTxOnly":true}}`. -/
def sampleHaltCommand : JSON :=
  .object [("type", .string (ascii "halt")), ("data", sampleHaltData)]

/-- The data object of a reply command with Time 43200000, SNR -10, DeltaTime
0.2, Mode "FT8", Message "CQ TEST K1ABC", Modifiers 0, and with the frequency
offset 1500 under the key `freqKey` and the low-confidence flag true under the
key `confKey`. -/
def sampleReplyData (freqKey confKey : String) : JSON :=
  .object
    [("Time", .number { int := some (false, 43200000), float := some 0x4184997000000000 }),
     ("SNR", .number { int := some (true, 10), float := some 0xC024000000000000 }),
     ("DeltaTime", .number { int := none, float := some 0x3FC999999999999A }),
     (freqKey, .number { int := some (false, 1500), float := some 0x4097700000000000 }),
     ("Mode", .string [0x46, 0x54, 0x38]),
     ("Message", .string [0x43, 0x51, 0x20, 0x54, 0x45, 0x53, 0x54, 0x20, 0x4B, 0x31, 0x41,
        0x42, 0x43]),
     (confKey, .bool true),
     ("Modifiers", .number { int := some (false, 0), float := some 0 })]

/-- The reply command `{"type":"reply","data":...}` with `sampleReplyData`. -/
def sampleReplyCommand (freqKey confKey : String) : JSON :=
  .object [("type", .string (ascii "reply")), ("data", sampleReplyData freqKey confKey)]

/-- The Reply message that carries every value of `sampleReplyData`. -/
def sampleReplySent : ReplyMessage :=
  { Id := ascii "WSJTX-WEB", Time := 43200000, SNR := -10, DeltaTime := 0x3FC999999999999A,
    DeltaFreq := 1500, Mode := [0x46, 0x54, 0x38],
    Message := [0x43, 0x51, 0x20, 0x54, 0x45, 0x53, 0x54, 0x20, 0x4B, 0x31, 0x41, 0x42, 0x43],
    LowConf := true, Modifiers := 0 }

/-- The Decode message `sampleDecode` with a quiet NaN as DeltaTime. -/
def sampleNaNDecode : DecodeMessage := { sampleDecode with DeltaTime := 0x7FF8000000000000 }

/-- The datagram of `sampleNaNDecode`, schema version 2: bytes 31..38 are the
NaN `7F F8 00 00 00 00 00 00`. -/
def sampleNaNDatagram : List Byte :=
  [0xAD, 0xBC, 0xCB, 0xDA, 0, 0, 0, 2, 0, 0, 0, 2, 0, 0, 0, 6, 0x57, 0x53, 0x4A, 0x54, 0x2D,
    0x58, 1, 0x02, 0x93, 0x2E, 0x00, 0xFF, 0xFF, 0xFF, 0xF6, 0x7F, 0xF8, 0, 0, 0, 0, 0, 0,
    0, 0, 0x05, 0xDC, 0, 0, 0, 3, 0x46, 0x54, 0x38, 0, 0, 0, 13, 0x43, 0x51, 0x20, 0x54, 0x45,
    0x53, 0x54, 0x20, 0x4B, 0x31, 0x41, 0x42, 0x43, 0, 0]

/-! ## Sequencing -/

theorem bind_apply {α β : Type} (x : Op α) (f : α → Op β) (s : List Byte) :
    (x >>= f) s = match x s with
      | (.ok a, s') => f a s'
      | (.error e, s') => (.error e, s') := rfl

theorem pure_apply {α : Type} (a : α) (s : List Byte) : (pure a : Op α) s = (.ok a, s) := rfl

theorem bind_ok {α β : Type} {x : Op α} {f : α → Op β} {s s' : List Byte} {a : α}
    (h : x s = (.ok a, s')) : (x >>= f) s = f a s' := by
  rw [bind_apply, h]

theorem bind_error {α β : Type} {x : Op α} {f : α → Op β} {s s' : List Byte} {e : Error}
    (h : x s = (.error e, s')) : (x >>= f) s = (.error e, s') := by
  rw [bind_apply, h]

theorem bind_ok_inv {α β : Type} {x : Op α} {f : α → Op β} {s r : List Byte} {v : β}
    (h : (x >>= f) s = (.ok v, r)) : ∃ a s', x s = (.ok a, s') ∧ f a s' = (.ok v, r) := by
  rw [bind_apply] at h
  rcases hx : x s with ⟨res, s'⟩
  rw [hx] at h
  cases res with
  | ok a => exact ⟨a, s', rfl, h⟩
  | error e => simp at h

theorem Framed_pure {α : Type} (a : α) : Framed (pure a : Decoder α) := by
  intro b v r h
  rw [pure_apply] at h
  obtain ⟨rfl, rfl⟩ : a = v ∧ b = r := by simpa using h
  refine ⟨[], rfl, fun t => rfl, ?_⟩
  intro p hp hne
  exact absurd (List.prefix_nil.mp hp) hne

theorem Framed_fail {α : Type} (e : Error) : Framed (Op.fail e : Decoder α) := by
  intro b v r h
  simp [Op.fail] at h

theorem Framed_readFull (n : Nat) : Framed (readFull n) := by
  intro b v r h
  unfold readFull at h
  split at h
  · rename_i hn
    obtain ⟨rfl, rfl⟩ : b.take n = v ∧ b.drop n = r := by simpa using h
    refine ⟨b.take n, (List.take_append_drop n b).symm, ?_, ?_⟩
    · intro t
      have hl : (b.take n).length = n := by simp [hn]
      simp [readFull, hl]
    · intro p hp hne
      have hlt : p.length < n := by
        have h1 : p.length ≤ (b.take n).length := hp.length_le
        have h2 : (b.take n).length = n := by simp [hn]
        rcases Nat.lt_or_ge p.length n with h3 | h3
        · exact h3
        · exfalso
          apply hne
          exact hp.eq_of_length (by omega)
      by_cases hnil : p = []
      · exact ⟨.EOF, by simp [readFull, hnil] at hlt ⊢; omega, rfl⟩
      · exact ⟨.ErrUnexpectedEOF, by simp [readFull, hnil, Nat.not_le.mpr hlt], rfl⟩
  · split at h <;> simp at h

theorem Framed_bind {α β : Type} {x : Decoder α} {f : α → Decoder β}
    (hx : Framed x) (hf : ∀ a, Framed (f a)) : Framed (x >>= f) := by
  intro b v r h
  obtain ⟨a, s', h1, h2⟩ := bind_ok_inv h
  obtain ⟨c1, rfl, e1, p1⟩ := hx b a s' h1
  obtain ⟨c2, rfl, e2, p2⟩ := hf a s' v r h2
  refine ⟨c1 ++ c2, by simp, ?_, ?_⟩
  · intro t
    rw [List.append_assoc, bind_ok (e1 (c2 ++ t))]
    exact e2 t
  · intro p hp hne
    by_cases hlen : p.length < c1.length
    · have hp1 : p <+: c1 := by
        have := List.prefix_of_prefix_length_le hp (List.prefix_append c1 c2) (Nat.le_of_lt hlen)
        exact this
      have hne1 : p ≠ c1 := by
        intro hEq
        rw [hEq] at hlen
        exact Nat.lt_irrefl _ hlen
      obtain ⟨e, he, hs⟩ := p1 p hp1 hne1
      exact ⟨e, bind_error he, hs⟩
    · have hc1 : c1 <+: p :=
        List.prefix_of_prefix_length_le (List.prefix_append c1 c2) hp (Nat.le_of_not_lt hlen)
      obtain ⟨q, rfl⟩ := hc1
      have hq : q <+: c2 := (List.prefix_append_right_inj c1).mp hp
      have hqne : q ≠ c2 := by
        intro hEq
        exact hne (by rw [hEq])
      obtain ⟨e, he, hs⟩ := p2 q hq hqne
      refine ⟨e, ?_, hs⟩
      rw [bind_ok (e1 q)]
      exact he

theorem Framed_ite {α : Type} (c : Prop) [Decidable c] {x y : Decoder α}
    (hx : Framed x) (hy : Framed y) : Framed (if c then x else y) := by
  split
  · exact hx
  · exact hy

theorem Framed_readUint32 : Framed readUint32 :=
  Framed_bind (Framed_readFull 4) fun _ => Framed_pure _

theorem Framed_readUint64 : Framed readUint64 :=
  Framed_bind (Framed_readFull 8) fun _ => Framed_pure _

theorem Framed_readUint8 : Framed readUint8 :=
  Framed_bind (Framed_readFull 1) fun _ => Framed_pure _

theorem Framed_readInt32 : Framed readInt32 :=
  Framed_bind (Framed_readFull 4) fun _ => Framed_pure _

theorem Framed_readFloat64 : Framed readFloat64 :=
  Framed_bind (Framed_readFull 8) fun _ => Framed_pure _

theorem Framed_readBool : Framed readBool :=
  Framed_bind (Framed_readFull 1) fun _ => Framed_pure _

theorem Framed_readQTime : Framed readQTime :=
  Framed_bind Framed_readUint32 fun _ => Framed_pure _

theorem Framed_readString : Framed readString :=
  Framed_bind Framed_readUint32 fun _ =>
    Framed_ite _ (Framed_pure _) (Framed_ite _ (Framed_pure _) (Framed_readFull _))

theorem Framed_decodeHeartbeat (base : BaseMessage) (schema : Nat) :
    Framed (decodeHeartbeat base schema) := by
  unfold decodeHeartbeat
  repeat first
    | exact Framed_pure _
    | apply Framed_bind Framed_readUint32
    | apply Framed_bind Framed_readString
    | intro _

theorem Framed_decodeStatus (base : BaseMessage) (schema : Nat) :
    Framed (decodeStatus base schema) := by
  unfold decodeStatus
  repeat first
    | exact Framed_pure _
    | apply Framed_bind Framed_readUint32
    | apply Framed_bind Framed_readUint64
    | apply Framed_bind Framed_readUint8
    | apply Framed_bind Framed_readBool
    | apply Framed_bind Framed_readString
    | intro _

theorem Framed_decodeDecode (base : BaseMessage) (schema : Nat) :
    Framed (decodeDecode base schema) := by
  unfold decodeDecode
  repeat first
    | exact Framed_pure _
    | apply Framed_bind Framed_readUint32
    | apply Framed_bind Framed_readQTime
    | apply Framed_bind Framed_readInt32
    | apply Framed_bind Framed_readFloat64
    | apply Framed_bind Framed_readBool
    | apply Framed_bind Framed_readString
    | intro _

theorem Framed_Decode : Framed Decode := by
  unfold Decode
  refine Framed_bind Framed_readUint32 fun magic => ?_
  refine Framed_ite _ (Framed_fail _) ?_
  refine Framed_bind Framed_readUint32 fun schema => ?_
  refine Framed_bind Framed_readUint32 fun msgType => ?_
  refine Framed_bind Framed_readString fun id => ?_
  refine Framed_ite _ (Framed_bind (Framed_decodeHeartbeat _ _) fun _ => Framed_pure _) ?_
  refine Framed_ite _ (Framed_bind (Framed_decodeStatus _ _) fun _ => Framed_pure _) ?_
  exact Framed_ite _ (Framed_bind (Framed_decodeDecode _ _) fun _ => Framed_pure _) (Framed_fail _)


/-! ## Byte layouts -/

theorem length_putBE (k n : Nat) : (putBE k n).length = k := by
  induction k generalizing n with
  | zero => rfl
  | succ k ih => simp [putBE, ih]

theorem beNat_append_singleton (bs : List Byte) (b : Byte) :
    beNat (bs ++ [b]) = beNat bs * 256 + b.val := by
  simp [beNat, List.foldl_append]

theorem beNat_putBE (k n : Nat) : beNat (putBE k n) = n % 256 ^ k := by
  induction k generalizing n with
  | zero => simp [putBE, beNat, Nat.mod_one]
  | succ k ih =>
    rw [putBE, beNat_append_singleton, ih]
    simp only [byteOf]
    rw [pow_succ, Nat.mul_comm (256 ^ k) 256, Nat.mod_mul]
    ring

theorem readFull_append {n : Nat} {bs : List Byte} (h : bs.length = n) (t : List Byte) :
    readFull n (bs ++ t) = (.ok bs, t) := by
  subst h
  simp [readFull]

theorem readUint32_putBE (n : Nat) (t : List Byte) :
    readUint32 (putBE 4 n ++ t) = (.ok (n % 2 ^ 32), t) := by
  simp [readUint32, bind_apply, readFull_append (length_putBE 4 n), pure_apply, beNat_putBE]

theorem readUint64_putBE (n : Nat) (t : List Byte) :
    readUint64 (putBE 8 n ++ t) = (.ok (n % 2 ^ 64), t) := by
  simp [readUint64, bind_apply, readFull_append (length_putBE 8 n), pure_apply, beNat_putBE]

theorem readFloat64_putBE (n : Nat) (t : List Byte) :
    readFloat64 (putBE 8 n ++ t) = (.ok (n % 2 ^ 64), t) := by
  simp [readFloat64, bind_apply, readFull_append (length_putBE 8 n), pure_apply, beNat_putBE]

theorem readUint8_cons (b : Byte) (t : List Byte) :
    readUint8 (b :: t) = (.ok b.val, t) := by
  simp [readUint8, bind_apply, readFull, pure_apply, beNat]

theorem readBool_cons (b : Byte) (t : List Byte) :
    readBool (b :: t) = (.ok (decide (b ≠ 0)), t) := by
  simp [readBool, bind_apply, readFull, pure_apply, beNat, Fin.ext_iff]

theorem toInt32_ofInt32 (v : Int) (h1 : -2 ^ 31 ≤ v) (h2 : v < 2 ^ 31) :
    toInt32 (ofInt32 v) = v := by
  unfold toInt32 ofInt32
  split <;> omega

theorem readInt32_putBE (v : Int) (t : List Byte) :
    readInt32 (putBE 4 (ofInt32 v) ++ t) = (.ok (toInt32 (ofInt32 v)), t) := by
  have : ofInt32 v % 2 ^ 32 = ofInt32 v := by
    unfold ofInt32; omega
  simp [readInt32, bind_apply, readFull_append (length_putBE 4 _), pure_apply, beNat_putBE]
  rw [show (4294967296 : Nat) = 2 ^ 32 by norm_num, this]

theorem readString_null (t : List Byte) :
    readString (0xff :: 0xff :: 0xff :: 0xff :: t) = (.ok [], t) := by
  have h : (0xff :: 0xff :: 0xff :: 0xff :: t : List Byte) = putBE 4 0xffffffff ++ t := rfl
  rw [h, readString, bind_ok (readUint32_putBE _ _)]
  rfl

theorem readString_zero (t : List Byte) :
    readString (0 :: 0 :: 0 :: 0 :: t) = (.ok [], t) := by
  have h : (0 :: 0 :: 0 :: 0 :: t : List Byte) = putBE 4 0 ++ t := rfl
  rw [h, readString, bind_ok (readUint32_putBE _ _)]
  rfl

theorem readString_str (s : List Byte) (h : s.length < 2 ^ 32 - 1) (t : List Byte) :
    readString (str s ++ t) = (.ok s, t) := by
  have hm : s.length % 2 ^ 32 = s.length := Nat.mod_eq_of_lt (by omega)
  unfold readString str
  rw [List.append_assoc, bind_ok (readUint32_putBE _ _), hm]
  by_cases h0 : s.length = 0
  · have : s = [] := List.length_eq_zero.mp h0
    subst this
    simp [pure_apply]
  · rw [if_neg (by omega), if_neg h0]
    exact readFull_append rfl t

theorem readString_wstr (null : Bool) (s : List Byte) (h : Fits s) (t : List Byte) :
    readString (wstr null s ++ t) = (.ok s, t) := by
  unfold wstr
  split
  · rename_i hn
    rw [hn.2]
    exact readString_null t
  · exact readString_str s h t

theorem decodeDecode_layout (base : BaseMessage) (schema : Nat) (new lowConfidence offAir : Byte)
    (time deltaTime deltaFrequency : Nat) (snr : Int) (mode message : List Byte) (nmode nmessage : Bool)
    (hmode : Fits mode) (hmessage : Fits message) (t : List Byte) :
    decodeDecode base schema
        (new :: (putBE 4 time ++ (putBE 4 (ofInt32 snr) ++ (putBE 8 deltaTime ++ (putBE 4
          deltaFrequency ++ (wstr nmode mode ++ (wstr nmessage message ++ (lowConfidence ::
          (offAir :: t))))))))) =
      (.ok { toBaseMessage := base, New := decide (new ≠ 0), Time := time % 2 ^ 32,
             SNR := toInt32 (ofInt32 snr), DeltaTime := deltaTime % 2 ^ 64,
             DeltaFrequency := deltaFrequency % 2 ^ 32, Mode := mode,
             Message := message, LowConfidence := decide (lowConfidence ≠ 0),
             OffAir := decide (offAir ≠ 0) }, t) := by
  unfold decodeDecode readQTime
  simp only [bind_apply, readBool_cons, readUint32_putBE, readInt32_putBE, readFloat64_putBE,
    readString_wstr _ _ hmode, readString_wstr _ _ hmessage, pure_apply]

theorem decodeHeartbeat_layout (base : BaseMessage) (schema : Nat) (maxSchema : Nat)
    (version revision : List Byte) (nversion nrevision : Bool) (hversion : Fits version)
    (hrevision : Fits revision)
    (t : List Byte) :
    decodeHeartbeat base schema
        (putBE 4 maxSchema ++ (wstr nversion version ++ (wstr nrevision revision ++ t))) =
      (.ok { toBaseMessage := base, MaxSchema := maxSchema % 2 ^ 32, Version := version,
             Revision := revision }, t) := by
  unfold decodeHeartbeat
  simp only [bind_apply, readUint32_putBE, readString_wstr _ _ hversion,
    readString_wstr _ _ hrevision, pure_apply]

theorem decodeStatus_layout (base : BaseMessage) (schema : Nat)
    (dialFrequency rxDF txDF frequencyTolerance trPeriod : Nat)
    (mode dxCall report txMode deCall deGrid dxGrid subMode configName txMessage : List Byte)
    (nmode ndxCall nreport ntxMode ndeCall ndeGrid ndxGrid nsubMode nconfigName ntxMessage : Bool)
    (txEnabled transmitting decoding txWatchdog fastMode specialOpMode : Byte)
    (hmode : Fits mode) (hdxCall : Fits dxCall) (hreport : Fits report)
    (htxMode : Fits txMode) (hdeCall : Fits deCall) (hdeGrid : Fits deGrid)
    (hdxGrid : Fits dxGrid) (hsubMode : Fits subMode) (hconfigName : Fits configName)
    (htxMessage : Fits txMessage) (t : List Byte) :
    decodeStatus base schema
        (putBE 8 dialFrequency ++ (wstr nmode mode ++ (wstr ndxCall dxCall ++ (wstr nreport
          report ++ (wstr ntxMode txMode ++ (txEnabled :: (transmitting :: (decoding :: (putBE 4
          rxDF ++ (putBE 4 txDF ++ (wstr ndeCall deCall ++ (wstr ndeGrid deGrid ++ (wstr ndxGrid
          dxGrid ++ (txWatchdog :: (wstr nsubMode subMode ++ (fastMode :: (specialOpMode ::
          (putBE 4 frequencyTolerance ++ (putBE 4 trPeriod ++ (wstr nconfigName configName ++
          (wstr ntxMessage txMessage ++ t))))))))))))))))))))) =
      (.ok { toBaseMessage := base, DialFrequency := dialFrequency % 2 ^ 64,
             Mode := mode, DXCall := dxCall, Report := report,
             TxMode := txMode, TxEnabled := decide (txEnabled ≠ 0),
             Transmitting := decide (transmitting ≠ 0), Decoding := decide (decoding ≠ 0),
             RxDF := rxDF % 2 ^ 32, TxDF := txDF % 2 ^ 32, DECall := deCall,
             DEGrid := deGrid, DXGrid := dxGrid,
             TxWatchdog := decide (txWatchdog ≠ 0), SubMode := subMode,
             FastMode := decide (fastMode ≠ 0), SpecialOpMode := specialOpMode.val,
             FrequencyTolerance := frequencyTolerance % 2 ^ 32, TRPeriod := trPeriod % 2 ^ 32,
             ConfigName := configName, TxMessage := txMessage }, t) := by
  unfold decodeStatus
  simp only [bind_apply, readBool_cons, readUint32_putBE, readUint64_putBE, readUint8_cons,
    readString_wstr _ _ hmode, readString_wstr _ _ hdxCall, readString_wstr _ _ hreport,
    readString_wstr _ _ htxMode, readString_wstr _ _ hdeCall, readString_wstr _ _ hdeGrid,
    readString_wstr _ _ hdxGrid, readString_wstr _ _ hsubMode, readString_wstr _ _ hconfigName,
    readString_wstr _ _ htxMessage, pure_apply]

theorem readUint32_bytes {bs : List Byte} (h : bs.length = 4) (t : List Byte) :
    readUint32 (bs ++ t) = (.ok (beNat bs), t) := by
  simp [readUint32, bind_apply, readFull_append h, pure_apply]

/-- What `Decode` does once a header with the right magic has been read: the
dispatch on the type tag, run on the bytes after the sender id. -/
theorem Decode_header (sch tg rest idv t : List Byte) (hsch : sch.length = 4)
    (htg : tg.length = 4) (hid : readString rest = (.ok idv, t)) :
    Decode (putBE 4 MagicNumber ++ (sch ++ (tg ++ rest))) =
      if beNat tg = MsgHeartbeat then
        (decodeHeartbeat (BaseMessage.mk idv) (beNat sch) >>= fun m =>
          (pure (Message.heartbeat m) : Decoder Message)) t
      else if beNat tg = MsgStatus then
        (decodeStatus (BaseMessage.mk idv) (beNat sch) >>= fun m =>
          (pure (Message.status m) : Decoder Message)) t
      else if beNat tg = MsgDecode then
        (decodeDecode (BaseMessage.mk idv) (beNat sch) >>= fun m =>
          (pure (Message.decode m) : Decoder Message)) t
      else (.error (.unsupportedType (beNat tg)), t) := by
  unfold Decode
  rw [bind_ok (readUint32_putBE _ _)]
  have hm : MagicNumber % 2 ^ 32 = MagicNumber := by decide
  rw [hm, if_neg (not_not.mpr rfl), bind_ok (readUint32_bytes hsch _),
    bind_ok (readUint32_bytes htg _), bind_ok hid]
  split
  · rfl
  · split
    · rfl
    · split
      · rfl
      · rfl

theorem putBE_mod (k n : Nat) : putBE k (n % 256 ^ k) = putBE k n := by
  induction k generalizing n with
  | zero => rfl
  | succ k ih =>
    have h1 : n % 256 ^ (k + 1) / 256 = n / 256 % 256 ^ k := by
      rw [pow_succ, Nat.mul_comm (256 ^ k) 256, Nat.mod_mul_right_div_self]
    have h2 : byteOf (n % 256 ^ (k + 1)) = byteOf n := by
      simp only [byteOf, pow_succ]
      congr 1
      exact Nat.mod_mul_left_mod n (256 ^ k) 256
    rw [putBE, h1, ih, h2, putBE]

theorem writeString_eq (s w : List Byte) : writeString s w = (.ok (), w ++ str s) := by
  unfold writeString
  split
  · rename_i h
    subst h
    rfl
  · have h : putBE 4 (s.length % 4294967296) = putBE 4 s.length := putBE_mod 4 s.length
    simp [bind_apply, writeUint32, write, h, str]

theorem writeHeader_eq (msgType schema : Nat) (id w : List Byte) :
    writeHeader msgType id schema w =
      (.ok (), w ++ putBE 4 MagicNumber ++ putBE 4 schema ++ putBE 4 msgType ++ str id) := by
  simp [writeHeader, bind_apply, writeUint32, write, writeString_eq]

theorem encodeHaltTx_eq (m : HaltTxMessage) (w : List Byte) :
    encodeHaltTx m w =
      (.ok (), w ++ putBE 4 MagicNumber ++ putBE 4 2 ++ putBE 4 8 ++ str m.Id ++
        [boolByte m.AutoTxOnly]) := by
  simp [encodeHaltTx, bind_apply, writeHeader_eq, writeBool, write, boolByte, Schema2, MsgHaltTx]

theorem encodeReply_eq (m : ReplyMessage) (w : List Byte) :
    encodeReply m w =
      (.ok (), w ++ putBE 4 MagicNumber ++ putBE 4 2 ++ putBE 4 4 ++ str m.Id ++
        putBE 4 m.Time ++ putBE 4 (ofInt32 m.SNR) ++ putBE 8 m.DeltaTime ++
        putBE 4 m.DeltaFreq ++ str m.Mode ++ str m.Message ++ [boolByte m.LowConf] ++
        putBE 1 m.Modifiers) := by
  simp [encodeReply, bind_apply, writeHeader_eq, writeBool, write, boolByte, Schema2, MsgReply,
    writeUint32, writeInt32, writeFloat64, writeUint8, writeString_eq]

theorem encodeHeartbeat_eq (m : HeartbeatMessage) (w : List Byte) :
    encodeHeartbeat m w =
      (.ok (), w ++ putBE 4 MagicNumber ++ putBE 4 2 ++ putBE 4 0 ++ str m.Id ++
        putBE 4 m.MaxSchema ++ str m.Version ++ str m.Revision) := by
  simp [encodeHeartbeat, bind_apply, writeHeader_eq, Schema2, MsgHeartbeat, write,
    writeUint32, writeString_eq]

/-- A string field written by `writeString` is always read back without
error by `readString`, whatever its length. -/
theorem readString_str_ok (s t : List Byte) :
    ∃ v r, readString (str s ++ t) = (.ok v, r) := by
  unfold readString str
  rw [List.append_assoc, bind_ok (readUint32_putBE _ _)]
  split
  · exact ⟨_, _, rfl⟩
  · split
    · exact ⟨_, _, rfl⟩
    · have hle : s.length % 2 ^ 32 ≤ (s ++ t).length := by
        have := Nat.mod_le s.length (2 ^ 32)
        simp only [List.length_append]
        omega
      exact ⟨(s ++ t).take (s.length % 2 ^ 32), (s ++ t).drop (s.length % 2 ^ 32),
        by simp only [readFull, if_pos hle]⟩

/-! ## Whole frames -/

theorem decide_boolByte (b : Bool) : decide (boolByte b ≠ 0) = b := by
  cases b <;> decide

theorem putBE_one (n : Nat) : putBE 1 n = [byteOf n] := rfl

theorem Decode_heartbeatFrame (nulls : Nat → Bool) (schema : Nat) (m : HeartbeatMessage)
    (h : m.StringsFit) (t : List Byte) :
    Decode (heartbeatFrame nulls schema m ++ t) =
      (.ok (.heartbeat { m with MaxSchema := m.MaxSchema % 2 ^ 32 }), t) := by
  obtain ⟨h0, h1, h2⟩ := h
  unfold heartbeatFrame
  simp only [List.append_assoc, List.singleton_append, List.cons_append, List.nil_append]
  rw [Decode_header _ _ _ _ _ (length_putBE 4 schema) (length_putBE 4 0)
    (readString_wstr (nulls 0) m.Id h0 _)]
  have htag : beNat (putBE 4 0) = MsgHeartbeat := by decide
  rw [if_pos htag, bind_ok (decodeHeartbeat_layout _ _ _ _ _ _ _ h1 h2 t)]
  rfl

theorem Decode_decodeFrame (nulls : Nat → Bool) (schema : Nat) (m : DecodeMessage)
    (h : m.StringsFit) (t : List Byte) :
    Decode (decodeFrame nulls schema m ++ t) =
      (.ok (.decode { m with Time := m.Time % 2 ^ 32, SNR := toInt32 (ofInt32 m.SNR),
                             DeltaTime := m.DeltaTime % 2 ^ 64,
                             DeltaFrequency := m.DeltaFrequency % 2 ^ 32 }), t) := by
  obtain ⟨h0, h1, h2⟩ := h
  unfold decodeFrame
  simp only [List.append_assoc, List.singleton_append, List.cons_append, List.nil_append]
  rw [Decode_header _ _ _ _ _ (length_putBE 4 schema) (length_putBE 4 2)
    (readString_wstr (nulls 0) m.Id h0 _)]
  have htag : beNat (putBE 4 2) = MsgDecode := by decide
  rw [if_neg (by rw [htag]; decide), if_neg (by rw [htag]; decide), if_pos htag,
    bind_ok (decodeDecode_layout _ _ _ _ _ _ _ _ _ _ _ _ _ h1 h2 t)]
  simp only [decide_boolByte]
  rfl

theorem Decode_statusFrame (nulls : Nat → Bool) (schema : Nat) (m : StatusMessage)
    (h : m.StringsFit) (t : List Byte) :
    Decode (statusFrame nulls schema m ++ t) =
      (.ok (.status { m with DialFrequency := m.DialFrequency % 2 ^ 64,
                             RxDF := m.RxDF % 2 ^ 32, TxDF := m.TxDF % 2 ^ 32,
                             SpecialOpMode := m.SpecialOpMode % 2 ^ 8,
                             FrequencyTolerance := m.FrequencyTolerance % 2 ^ 32,
                             TRPeriod := m.TRPeriod % 2 ^ 32 }), t) := by
  obtain ⟨h0, h1, h2, h3, h4, h5, h6, h7, h8, h9, h10⟩ := h
  unfold statusFrame
  simp only [putBE_one, List.append_assoc, List.singleton_append, List.cons_append,
    List.nil_append]
  rw [Decode_header _ _ _ _ _ (length_putBE 4 schema) (length_putBE 4 1)
    (readString_wstr (nulls 0) m.Id h0 _)]
  have htag : beNat (putBE 4 1) = MsgStatus := by decide
  rw [if_neg (by rw [htag]; decide), if_pos htag,
    bind_ok (decodeStatus_layout _ _ _ _ _ _ _ _ _ _ _ _ _ _ _ _ _ _ _ _ _ _ _ _ _ _ _ _ _ _ _ _ _
      h1 h2 h3 h4 h5 h6 h7 h8 h9 h10 t)]
  simp only [decide_boolByte]
  rfl

/-! ## Least number of bytes read -/

theorem ReadsAtLeast.mono {α : Type} {k k' : Nat} (d : Decoder α) (h : ReadsAtLeast k d)
    (hle : k' ≤ k) : ReadsAtLeast k' d := by
  intro b a r hd
  have := h b a r hd
  omega

theorem ReadsAtLeast_pure {α : Type} (a : α) : ReadsAtLeast 0 (pure a : Decoder α) := by
  intro b v r h
  rw [pure_apply] at h
  obtain ⟨-, rfl⟩ : a = v ∧ b = r := by simpa using h
  exact Nat.le_refl _

theorem ReadsAtLeast_readFull (n : Nat) : ReadsAtLeast n (readFull n) := by
  intro b v r h
  unfold readFull at h
  split at h
  · rename_i hn
    obtain ⟨-, rfl⟩ : b.take n = v ∧ b.drop n = r := by simpa using h
    simp only [List.length_drop]
    omega
  · split at h <;> simp at h

theorem ReadsAtLeast_bind {α β : Type} {j k : Nat} {x : Decoder α} {f : α → Decoder β}
    (hx : ReadsAtLeast j x) (hf : ∀ a, ReadsAtLeast k (f a)) : ReadsAtLeast (j + k) (x >>= f) := by
  intro b v r h
  obtain ⟨a, s', h1, h2⟩ := bind_ok_inv h
  have := hx b a s' h1
  have := hf a s' v r h2
  omega

theorem ReadsAtLeast_readUint32 : ReadsAtLeast 4 readUint32 :=
  ReadsAtLeast_bind (ReadsAtLeast_readFull 4) fun _ => ReadsAtLeast_pure _

theorem ReadsAtLeast_readUint64 : ReadsAtLeast 8 readUint64 :=
  ReadsAtLeast_bind (ReadsAtLeast_readFull 8) fun _ => ReadsAtLeast_pure _

theorem ReadsAtLeast_readUint8 : ReadsAtLeast 1 readUint8 :=
  ReadsAtLeast_bind (ReadsAtLeast_readFull 1) fun _ => ReadsAtLeast_pure _

theorem ReadsAtLeast_readBool : ReadsAtLeast 1 readBool :=
  ReadsAtLeast_bind (ReadsAtLeast_readFull 1) fun _ => ReadsAtLeast_pure _

theorem ReadsAtLeast_readString : ReadsAtLeast 4 readString := by
  unfold readString
  have h : ∀ length : Nat, ReadsAtLeast 0
      (if length = 0xffffffff then pure []
        else if length = 0 then pure [] else readFull length : Decoder (List Byte)) := by
    intro length
    split
    · exact ReadsAtLeast_pure _
    · split
      · exact ReadsAtLeast_pure _
      · exact ReadsAtLeast.mono _ (ReadsAtLeast_readFull length) (Nat.zero_le _)
  exact ReadsAtLeast_bind ReadsAtLeast_readUint32 h
theorem ReadsAtLeast_decodeStatus (base : BaseMessage) (schema : Nat) :
    ReadsAtLeast 70 (decodeStatus base schema) := by
  have h : ReadsAtLeast (8 + (4 + (4 + (4 + (4 + (1 + (1 + (1 + (4 + (4 + (4 + (4 + (4 +
      (1 + (4 + (1 + (1 + (4 + (4 + (4 + (4 + 0)))))))))))))))))))))
      (decodeStatus base schema) := by
    unfold decodeStatus
    repeat first
      | exact ReadsAtLeast_pure _
      | apply ReadsAtLeast_bind ReadsAtLeast_readUint32
      | apply ReadsAtLeast_bind ReadsAtLeast_readUint64
      | apply ReadsAtLeast_bind ReadsAtLeast_readUint8
      | apply ReadsAtLeast_bind ReadsAtLeast_readBool
      | apply ReadsAtLeast_bind ReadsAtLeast_readString
      | intro _
  exact ReadsAtLeast.mono _ h (by decide)

/-- A datagram that decodes to a Status message has at least 86 bytes read:
16 for the header with an empty sender id and 70 for the 21 fields. -/
theorem Decode_status_length (b : List Byte) (m : StatusMessage) (r : List Byte)
    (h : Decode b = (.ok (.status m), r)) : r.length + 86 ≤ b.length := by
  unfold Decode at h
  obtain ⟨magic, s1, h1, h⟩ := bind_ok_inv h
  have l1 := ReadsAtLeast_readUint32 b magic s1 h1
  split at h
  · simp [Op.fail] at h
  obtain ⟨sch, s2, h2, h⟩ := bind_ok_inv h
  have l2 := ReadsAtLeast_readUint32 s1 sch s2 h2
  obtain ⟨msgType, s3, h3, h⟩ := bind_ok_inv h
  have l3 := ReadsAtLeast_readUint32 s2 msgType s3 h3
  obtain ⟨id, s4, h4, h⟩ := bind_ok_inv h
  have l4 := ReadsAtLeast_readString s3 id s4 h4
  split at h
  · obtain ⟨v, s5, -, h⟩ := bind_ok_inv h
    simp [pure_apply] at h
  · split at h
    · obtain ⟨v, s5, h5, h⟩ := bind_ok_inv h
      have l5 := ReadsAtLeast_decodeStatus _ _ s4 v s5 h5
      rw [pure_apply] at h
      obtain ⟨-, rfl⟩ : Message.status v = Message.status m ∧ s5 = r := by simpa using h
      omega
    · split at h
      · obtain ⟨v, s5, -, h⟩ := bind_ok_inv h
        simp [pure_apply] at h
      · simp [Op.fail] at h

/-! ## Claims about rejected frames -/

/-- C1: a buffer of at least 4 bytes whose first four bytes, read as a
big-endian u32, are not `0xADBCCBDA` makes `ParsePacket` fail with the
invalid-magic error and no message; the decoder has then consumed exactly
those 4 bytes (the reader stands at byte 4), and every buffer with the same
first four bytes gives the same result. -/
theorem ParsePacket_invalid_magic (b : List Byte) (h4 : 4 ≤ b.length)
    (hm : beNat (b.take 4) ≠ MagicNumber) :
    ParsePacket b = .error (.invalidMagic (beNat (b.take 4))) ∧
      Decode b = (.error (.invalidMagic (beNat (b.take 4))), b.drop 4) ∧
      consumed b = 4 ∧
      ∀ b' : List Byte, b'.take 4 = b.take 4 → ParsePacket b' = ParsePacket b := by
  have key : ∀ c : List Byte, 4 ≤ c.length → beNat (c.take 4) ≠ MagicNumber →
      Decode c = (.error (.invalidMagic (beNat (c.take 4))), c.drop 4) := by
    intro c hc hmc
    simp [Decode, bind_apply, readUint32, readFull, hc, hmc, pure_apply, Op.fail]
  have hb := key b h4 hm
  refine ⟨by rw [ParsePacket, hb], hb, ?_, ?_⟩
  · rw [consumed, hb]
    simp only [List.length_drop]
    omega
  · intro b' hb'
    have hlen : 4 ≤ b'.length := by
      have h1 : (b'.take 4).length = (b.take 4).length := by rw [hb']
      simp only [List.length_take] at h1
      omega
    rw [ParsePacket, ParsePacket, hb, key b' hlen (by rw [hb']; exact hm), hb']

theorem ParsePacket_invalid_magic_witness :
    4 ≤ ([0xAD, 0xBC, 0xCB, 0xDB, 0, 0, 0, 2, 0, 0, 0, 0] : List Byte).length ∧
      beNat (([0xAD, 0xBC, 0xCB, 0xDB, 0, 0, 0, 2, 0, 0, 0, 0] : List Byte).take 4) ≠
        MagicNumber ∧
      ParsePacket [0xAD, 0xBC, 0xCB, 0xDB, 0, 0, 0, 2, 0, 0, 0, 0] =
        .error (.invalidMagic 0xADBCCBDB) ∧
      consumed [0xAD, 0xBC, 0xCB, 0xDB, 0, 0, 0, 2, 0, 0, 0, 0] = 4 := by
  have h := ParsePacket_invalid_magic [0xAD, 0xBC, 0xCB, 0xDB, 0, 0, 0, 2, 0, 0, 0, 0]
    (by decide) (by decide)
  exact ⟨by decide, by decide, h.1, h.2.2.1⟩

/-- C2: truncation is always an error. When `ParsePacket` succeeds on `b`, it
fails with a short-read error (`io.EOF` or `io.ErrUnexpectedEOF`), hence with
no message at all, on every proper initial segment of the bytes of `b` that
it consumed, wherever the cut falls; the empty buffer is such a segment and
gives `io.EOF`. -/
theorem ParsePacket_truncated (b : List Byte) (m : Message) (h : ParsePacket b = .ok m)
    (p : List Byte) (hp : p <+: b.take (consumed b)) (hne : p ≠ b.take (consumed b)) :
    (∃ e, ParsePacket p = .error e ∧ e.isShortRead = true) ∧
      [] <+: b.take (consumed b) ∧ [] ≠ b.take (consumed b) ∧
      ParsePacket [] = .error .EOF := by
  obtain ⟨r, hr⟩ : ∃ r, Decode b = (.ok m, r) := by
    unfold ParsePacket at h
    exact ⟨(Decode b).2, Prod.ext h rfl⟩
  obtain ⟨c, rfl, hext, hc⟩ := Framed_Decode b m r hr
  have hcons : (c ++ r).take (consumed (c ++ r)) = c := by
    rw [consumed, hr]
    simp
  rw [hcons] at hp hne ⊢
  obtain ⟨e, he, hs⟩ := hc p hp hne
  refine ⟨⟨e, by rw [ParsePacket, he], hs⟩, List.nil_prefix, ?_, rfl⟩
  intro hnil
  have h1 := hext []
  rw [← hnil] at h1
  have h2 : Decode ([] ++ []) = (.error .EOF, []) := rfl
  rw [h2] at h1
  simp at h1

theorem ParsePacket_truncated_witness :
    ParsePacket [0xAD, 0xBC, 0xCB, 0xDA, 0, 0, 0, 2, 0, 0, 0, 0, 0, 0, 0, 1, 0x41,
        0, 0, 0, 3, 0, 0, 0, 3, 0x32, 0x2E, 0x36, 0xFF, 0xFF, 0xFF, 0xFF, 0x99] =
        .ok (.heartbeat sampleHeartbeat) ∧
      consumed [0xAD, 0xBC, 0xCB, 0xDA, 0, 0, 0, 2, 0, 0, 0, 0, 0, 0, 0, 1, 0x41,
        0, 0, 0, 3, 0, 0, 0, 3, 0x32, 0x2E, 0x36, 0xFF, 0xFF, 0xFF, 0xFF, 0x99] = 32 ∧
      ∃ e, ParsePacket [0xAD, 0xBC, 0xCB, 0xDA, 0, 0, 0, 2, 0, 0, 0, 0, 0, 0, 0, 1, 0x41,
        0, 0, 0, 3, 0, 0, 0, 3, 0x32, 0x2E] = .error e ∧ e.isShortRead = true :=
  ⟨by decide, by decide,
    (ParsePacket_truncated
      [0xAD, 0xBC, 0xCB, 0xDA, 0, 0, 0, 2, 0, 0, 0, 0, 0, 0, 0, 1, 0x41,
        0, 0, 0, 3, 0, 0, 0, 3, 0x32, 0x2E, 0x36, 0xFF, 0xFF, 0xFF, 0xFF, 0x99]
      (.heartbeat sampleHeartbeat) (by decide)
      [0xAD, 0xBC, 0xCB, 0xDA, 0, 0, 0, 2, 0, 0, 0, 0, 0, 0, 0, 1, 0x41,
        0, 0, 0, 3, 0, 0, 0, 3, 0x32, 0x2E]
      (by decide) (by decide)).1⟩

/-- C3: a buffer made of the magic, four bytes of schema version, four bytes
of type tag and a completely present sender id (the null string, or a length
followed by that many bytes) whose tag is not 0, 1 or 2 makes `ParsePacket`
fail with the unsupported-message-type error, whatever bytes follow the sender
id, which are left unread. In particular the bytes that `Encode` writes for any
Reply message (tag 4) and any HaltTx message (tag 8) are rejected so. -/
theorem ParsePacket_unsupported_type (sch tg id rest : List Byte) (null : Bool)
    (hsch : sch.length = 4) (htg : tg.length = 4) (hid : Fits id)
    (h0 : beNat tg ≠ 0) (h1 : beNat tg ≠ 1) (h2 : beNat tg ≠ 2) :
    (ParsePacket (putBE 4 MagicNumber ++ sch ++ tg ++ wstr null id ++ rest) =
        .error (.unsupportedType (beNat tg)) ∧
      Decode (putBE 4 MagicNumber ++ sch ++ tg ++ wstr null id ++ rest) =
        (.error (.unsupportedType (beNat tg)), rest)) ∧
      (∀ m : ReplyMessage, ∃ bytes, Encode (.reply m) [] = (.ok (), bytes) ∧
        ParsePacket bytes = .error (.unsupportedType 4)) ∧
      (∀ m : HaltTxMessage, ∃ bytes, Encode (.haltTx m) [] = (.ok (), bytes) ∧
        ParsePacket bytes = .error (.unsupportedType 8)) := by
  refine ⟨?_, ?_, ?_⟩
  · have hD : Decode (putBE 4 MagicNumber ++ sch ++ tg ++ wstr null id ++ rest) =
        (.error (.unsupportedType (beNat tg)), rest) := by
      simp only [List.append_assoc]
      rw [Decode_header sch tg _ id rest hsch htg (readString_wstr null id hid rest)]
      simp [MsgHeartbeat, MsgStatus, MsgDecode, h0, h1, h2]
    exact ⟨by rw [ParsePacket, hD], hD⟩
  · intro m
    refine ⟨_, encodeReply_eq m [], ?_⟩
    obtain ⟨v, r, hv⟩ := readString_str_ok m.Id (putBE 4 m.Time ++ (putBE 4 (ofInt32 m.SNR) ++
      (putBE 8 m.DeltaTime ++ (putBE 4 m.DeltaFreq ++ (str m.Mode ++ (str m.Message ++
      (boolByte m.LowConf :: putBE 1 m.Modifiers)))))))
    have hD := Decode_header (putBE 4 2) (putBE 4 4) _ v r (length_putBE 4 2)
      (length_putBE 4 4) hv
    have h4 : beNat (putBE 4 4) = 4 := by decide
    rw [h4] at hD
    simp only [MsgHeartbeat, MsgStatus, MsgDecode] at hD
    rw [if_neg (by decide), if_neg (by decide), if_neg (by decide)] at hD
    rw [ParsePacket]
    simp only [List.nil_append, List.append_assoc, List.singleton_append, List.cons_append]
    rw [hD]
  · intro m
    refine ⟨_, encodeHaltTx_eq m [], ?_⟩
    obtain ⟨v, r, hv⟩ := readString_str_ok m.Id [boolByte m.AutoTxOnly]
    have hD := Decode_header (putBE 4 2) (putBE 4 8) _ v r (length_putBE 4 2)
      (length_putBE 4 8) hv
    have h8 : beNat (putBE 4 8) = 8 := by decide
    rw [h8] at hD
    simp only [MsgHeartbeat, MsgStatus, MsgDecode] at hD
    rw [if_neg (by decide), if_neg (by decide), if_neg (by decide)] at hD
    rw [ParsePacket]
    simp only [List.nil_append, List.append_assoc, List.singleton_append, List.cons_append]
    rw [hD]

theorem ParsePacket_unsupported_type_witness :
    Fits [0x57, 0x45, 0x42] ∧ beNat [0, 0, 0, 4] ≠ 0 ∧ beNat [0, 0, 0, 4] ≠ 1 ∧
      beNat [0, 0, 0, 4] ≠ 2 ∧
      ParsePacket (putBE 4 MagicNumber ++ [0, 0, 0, 2] ++ [0, 0, 0, 4] ++
        wstr false [0x57, 0x45, 0x42] ++ [1, 2, 3]) = .error (.unsupportedType 4) :=
  ⟨by decide, by decide, by decide, by decide,
    (ParsePacket_unsupported_type [0, 0, 0, 2] [0, 0, 0, 4] [0x57, 0x45, 0x42] [1, 2, 3] false
      rfl rfl (by decide) (by decide) (by decide) (by decide)).1.1⟩

/-! ## Claims about string fields and the encoder -/

/-- C4: a string field with length `FF FF FF FF` (null) and one with length
`00 00 00 00` (empty) both decode to the empty string and leave the reader
right after the four length bytes, so that whatever is decoded next gives the
same result for both. Hence a buffer parses to the same result with a null as
with an empty sender id, whatever else it holds, and a Heartbeat, Status or
Decode frame parses to the same result whichever of its empty string fields
are written as null. Any other length `L` followed by at least `L` bytes
decodes to exactly those `L` bytes, whatever their values, and leaves the
reader `4 + L` bytes further. -/
theorem readString_null_empty (t : List Byte) :
    readString ([0xff, 0xff, 0xff, 0xff] ++ t) = (.ok [], t) ∧
      readString ([0, 0, 0, 0] ++ t) = (.ok [], t) ∧
      (∀ (α : Type) (k : List Byte → Decoder α),
        (readString >>= k) ([0xff, 0xff, 0xff, 0xff] ++ t) =
          (readString >>= k) ([0, 0, 0, 0] ++ t)) ∧
      (∀ (nulls nulls' : Nat → Bool) (schema : Nat) (m : HeartbeatMessage), m.StringsFit →
        ParsePacket (heartbeatFrame nulls schema m ++ t) =
          ParsePacket (heartbeatFrame nulls' schema m ++ t)) ∧
      (∀ (nulls nulls' : Nat → Bool) (schema : Nat) (m : StatusMessage), m.StringsFit →
        ParsePacket (statusFrame nulls schema m ++ t) =
          ParsePacket (statusFrame nulls' schema m ++ t)) ∧
      (∀ (nulls nulls' : Nat → Bool) (schema : Nat) (m : DecodeMessage), m.StringsFit →
        ParsePacket (decodeFrame nulls schema m ++ t) =
          ParsePacket (decodeFrame nulls' schema m ++ t)) ∧
      (∀ body : List Byte, body.length ≠ 0 → body.length < 0xffffffff →
        readString (putBE 4 body.length ++ body ++ t) = (.ok body, t) ∧
          (putBE 4 body.length ++ body ++ t).length - t.length = 4 + body.length) ∧
      (∀ sch tg : List Byte, sch.length = 4 → tg.length = 4 →
        ParsePacket (putBE 4 MagicNumber ++ sch ++ tg ++ [0xff, 0xff, 0xff, 0xff] ++ t) =
          ParsePacket (putBE 4 MagicNumber ++ sch ++ tg ++ [0, 0, 0, 0] ++ t)) := by
  refine ⟨readString_null t, readString_zero t, ?_, ?_, ?_, ?_, ?_, ?_⟩
  · intro α k
    rw [bind_ok (show readString ([0xff, 0xff, 0xff, 0xff] ++ t) = (.ok [], t) from
        readString_null t),
      bind_ok (show readString ([0, 0, 0, 0] ++ t) = (.ok [], t) from readString_zero t)]
  · intro nulls nulls' schema m h
    rw [ParsePacket, ParsePacket, Decode_heartbeatFrame nulls schema m h t,
      Decode_heartbeatFrame nulls' schema m h t]
  · intro nulls nulls' schema m h
    rw [ParsePacket, ParsePacket, Decode_statusFrame nulls schema m h t,
      Decode_statusFrame nulls' schema m h t]
  · intro nulls nulls' schema m h
    rw [ParsePacket, ParsePacket, Decode_decodeFrame nulls schema m h t,
      Decode_decodeFrame nulls' schema m h t]
  · intro body _ hlt
    refine ⟨readString_str body hlt t, ?_⟩
    simp only [List.length_append, length_putBE]
    omega
  · intro sch tg hsch htg
    rw [ParsePacket, ParsePacket]
    simp only [List.append_assoc]
    rw [Decode_header sch tg _ [] t hsch htg
        (show readString ([0xff, 0xff, 0xff, 0xff] ++ t) = (.ok [], t) from readString_null t),
      Decode_header sch tg _ [] t hsch htg
        (show readString ([0, 0, 0, 0] ++ t) = (.ok [], t) from readString_zero t)]

theorem readString_null_empty_witness :
    sampleStatus.StringsFit ∧
      ParsePacket (statusFrame (fun _ => true) 3 sampleStatus ++ []) =
        ParsePacket (statusFrame (fun _ => false) 3 sampleStatus ++ []) ∧
      ([0xC3, 0x28] : List Byte).length ≠ 0 ∧
      ([0xC3, 0x28] : List Byte).length < 0xffffffff ∧
      readString (putBE 4 ([0xC3, 0x28] : List Byte).length ++ [0xC3, 0x28] ++ []) =
        (.ok [0xC3, 0x28], []) :=
  ⟨by decide,
    (readString_null_empty []).2.2.2.2.1 (fun _ => true) (fun _ => false) 3 sampleStatus
      (by decide),
    by decide, by decide,
    ((readString_null_empty []).2.2.2.2.2.2.1 [0xC3, 0x28] (by decide) (by decide)).1⟩

/-- C5: for every sender id `s` and boolean `a`, `Encode` of
`HaltTx{Id=s, AutoTxOnly=a}` succeeds and appends to the buffer exactly
`AD BC CB DA`, `00 00 00 02`, `00 00 00 08`, the 4-byte big-endian length of
`s`, the bytes of `s`, and one byte that is 01 when `a` is true and 00 when it
is false: `17 + len(s)` bytes in all. The four length bytes hold the low 32
bits of the length, which is the length itself when `s` is shorter than `2^32`
bytes. -/
theorem Encode_haltTx_bytes (s : List Byte) (a : Bool) (w : List Byte) :
    Encode (.haltTx { Id := s, AutoTxOnly := a }) w =
        (.ok (), w ++ ([0xAD, 0xBC, 0xCB, 0xDA] ++ [0, 0, 0, 2] ++ [0, 0, 0, 8] ++
          putBE 4 s.length ++ s ++ [if a then 1 else 0])) ∧
      ([0xAD, 0xBC, 0xCB, 0xDA] ++ [0, 0, 0, 2] ++ [0, 0, 0, 8] ++
          putBE 4 s.length ++ s ++ [if a then (1 : Byte) else 0]).length = 17 + s.length ∧
      (s.length < 2 ^ 32 → beNat (putBE 4 s.length) = s.length) := by
  refine ⟨?_, ?_, ?_⟩
  · have h := encodeHaltTx_eq { Id := s, AutoTxOnly := a } w
    have hm : putBE 4 MagicNumber = [0xAD, 0xBC, 0xCB, 0xDA] := by decide
    have h2 : putBE 4 2 = [0, 0, 0, 2] := by decide
    have h8 : putBE 4 8 = [0, 0, 0, 8] := by decide
    rw [hm, h2, h8] at h
    simp only [Encode, h, str, boolByte, List.append_assoc]
  · simp only [List.length_append, length_putBE, List.length_cons, List.length_nil]
    omega
  · intro hlt
    rw [beNat_putBE]
    exact Nat.mod_eq_of_lt hlt

theorem Encode_haltTx_bytes_witness :
    Encode (.haltTx { Id := [0x57, 0x53, 0x4A, 0x54, 0x58, 0x2D, 0x57, 0x45, 0x42],
                      AutoTxOnly := true }) [] =
        (.ok (), [0xAD, 0xBC, 0xCB, 0xDA, 0, 0, 0, 2, 0, 0, 0, 8, 0, 0, 0, 9,
          0x57, 0x53, 0x4A, 0x54, 0x58, 0x2D, 0x57, 0x45, 0x42, 1]) ∧
      ([0x57, 0x53, 0x4A, 0x54, 0x58, 0x2D, 0x57, 0x45, 0x42] : List Byte).length < 2 ^ 32 ∧
      beNat (putBE 4 ([0x57, 0x53, 0x4A, 0x54, 0x58, 0x2D, 0x57, 0x45, 0x42] :
        List Byte).length) = 9 :=
  ⟨(Encode_haltTx_bytes [0x57, 0x53, 0x4A, 0x54, 0x58, 0x2D, 0x57, 0x45, 0x42] true []).1,
    by decide,
    (Encode_haltTx_bytes [0x57, 0x53, 0x4A, 0x54, 0x58, 0x2D, 0x57, 0x45, 0x42] true []).2.2
      (by decide)⟩

/-- On messages passed as non-nil pointers, `Encode` into an in-memory buffer
succeeds exactly on the Heartbeat, Reply and HaltTx structs; on every Status
and every Decode message it returns the unsupported-message-type error and
leaves the buffer as it was. -/
theorem Encode_ok_iff (msg : Message) (w : List Byte) :
    ((Encode msg w).1 = .ok () ↔
        (∃ m, msg = .heartbeat m) ∨ (∃ m, msg = .reply m) ∨ (∃ m, msg = .haltTx m)) ∧
      (∀ m, Encode (.status m) w =
        (.error (.unsupportedEncoding "*wsjtx.StatusMessage"), w)) ∧
      (∀ m, Encode (.decode m) w =
        (.error (.unsupportedEncoding "*wsjtx.DecodeMessage"), w)) ∧
      (∀ m, (Encode (.heartbeat m) w).1 = .ok ()) ∧
      (∀ m, (Encode (.reply m) w).1 = .ok ()) ∧
      (∀ m, (Encode (.haltTx m) w).1 = .ok ()) := by
  refine ⟨?_, fun _ => rfl, fun _ => rfl, ?_, ?_, ?_⟩
  · cases msg with
    | heartbeat m => simp [Encode, encodeHeartbeat_eq]
    | status m => simp [Encode, Op.fail]
    | decode m => simp [Encode, Op.fail]
    | reply m => simp [Encode, encodeReply_eq]
    | haltTx m => simp [Encode, encodeHaltTx_eq]
  · intro m
    simp [Encode, encodeHeartbeat_eq]
  · intro m
    simp [Encode, encodeReply_eq]
  · intro m
    simp [Encode, encodeHaltTx_eq]

/-- C6, the claim fails: a Heartbeat, Reply or HaltTx message passed to
`Encode` by value is not matched by the pointer cases of the type switch; the
call returns the unsupported-message-type error and writes nothing. -/
theorem EncodeValue_struct_by_value :
    EncodeValue (.value (.heartbeat sampleHeartbeat)) [] =
        some (.error (.unsupportedEncoding "wsjtx.HeartbeatMessage"), []) ∧
      EncodeValue (.value (.reply sampleReply)) [] =
        some (.error (.unsupportedEncoding "wsjtx.ReplyMessage"), []) ∧
      EncodeValue (.value (.haltTx { Id := [0x57], AutoTxOnly := true })) [] =
        some (.error (.unsupportedEncoding "wsjtx.HaltTxMessage"), []) ∧
      (Message.heartbeat sampleHeartbeat).Type = MsgHeartbeat ∧
      ∃ buf, EncodeValue (.pointer (.heartbeat sampleHeartbeat)) [] = some (.ok (), buf) :=
  ⟨rfl, rfl, rfl, rfl, ⟨_, congrArg some (encodeHeartbeat_eq sampleHeartbeat [])⟩⟩

/-- C6, amended: `Encode` into an in-memory buffer succeeds if and only if the
message is a non-nil pointer to a Heartbeat, Reply or HaltTx struct. For every
such pointer it returns no error; for every pointer to a Status or Decode
struct, for every message struct passed by value and for every value of
another type it returns the unsupported-message-type error and leaves the
buffer as it was. -/
theorem EncodeValue_ok_iff (v : MessageValue) (w : List Byte) :
    ((∃ buf, EncodeValue v w = some (.ok (), buf)) ↔
        (∃ m, v = .pointer (.heartbeat m)) ∨ (∃ m, v = .pointer (.reply m)) ∨
          (∃ m, v = .pointer (.haltTx m))) ∧
      (∀ m, EncodeValue (.pointer (.status m)) w =
        some (.error (.unsupportedEncoding "*wsjtx.StatusMessage"), w)) ∧
      (∀ m, EncodeValue (.pointer (.decode m)) w =
        some (.error (.unsupportedEncoding "*wsjtx.DecodeMessage"), w)) ∧
      (∀ msg, EncodeValue (.value msg) w =
        some (.error (.unsupportedEncoding msg.variant.goType), w)) ∧
      (∀ goType, EncodeValue (.other goType) w =
        some (.error (.unsupportedEncoding goType), w)) ∧
      (∀ m, ∃ buf, EncodeValue (.pointer (.heartbeat m)) w = some (.ok (), buf)) ∧
      (∀ m, ∃ buf, EncodeValue (.pointer (.reply m)) w = some (.ok (), buf)) ∧
      (∀ m, ∃ buf, EncodeValue (.pointer (.haltTx m)) w = some (.ok (), buf)) := by
  have hH : ∀ m, ∃ buf, EncodeValue (.pointer (.heartbeat m)) w = some (.ok (), buf) :=
    fun m => ⟨_, congrArg some (encodeHeartbeat_eq m w)⟩
  have hR : ∀ m, ∃ buf, EncodeValue (.pointer (.reply m)) w = some (.ok (), buf) :=
    fun m => ⟨_, congrArg some (encodeReply_eq m w)⟩
  have hT : ∀ m, ∃ buf, EncodeValue (.pointer (.haltTx m)) w = some (.ok (), buf) :=
    fun m => ⟨_, congrArg some (encodeHaltTx_eq m w)⟩
  refine ⟨?_, fun _ => rfl, fun _ => rfl, fun _ => rfl, fun _ => rfl, hH, hR, hT⟩
  constructor
  · rintro ⟨buf, h⟩
    cases v with
    | pointer msg =>
      cases msg with
      | heartbeat m => exact Or.inl ⟨m, rfl⟩
      | reply m => exact Or.inr (Or.inl ⟨m, rfl⟩)
      | haltTx m => exact Or.inr (Or.inr ⟨m, rfl⟩)
      | status m => simp [EncodeValue, Encode, Op.fail] at h
      | decode m => simp [EncodeValue, Encode, Op.fail] at h
    | value msg => simp [EncodeValue] at h
    | nilPointer variant => cases variant <;> simp [EncodeValue] at h
    | other goType => simp [EncodeValue] at h
  · rintro (⟨m, rfl⟩ | ⟨m, rfl⟩ | ⟨m, rfl⟩)
    · exact hH m
    · exact hR m
    · exact hT m

/-- The length bytes that `writeString` writes are not the null mark as long
as the length of the string is not `2^32 - 1` modulo `2^32`. -/
theorem str_take_ne_null (s : List Byte) (h : s.length % 2 ^ 32 ≠ 2 ^ 32 - 1) :
    (str s).take 4 ≠ [0xff, 0xff, 0xff, 0xff] := by
  intro hEq
  have h1 : (str s).take 4 = putBE 4 s.length := by
    unfold str
    rw [List.take_append_of_le_length (by rw [length_putBE]), List.take_of_length_le]
    rw [length_putBE]
  rw [h1] at hEq
  have h2 := congrArg beNat hEq
  rw [beNat_putBE] at h2
  have h3 : beNat ([0xff, 0xff, 0xff, 0xff] : List Byte) = 2 ^ 32 - 1 := by decide
  rw [h3] at h2
  exact h h2

/-- C7, at the failing input: for a sender id of `2^32 - 1` bytes the
conversion `uint32(len(s))` is `0xFFFFFFFF`, and `writeString`, and with it
`Encode` of an encodable message, writes the null mark `FF FF FF FF` as the
length of a string that is not empty, followed by all its bytes. The empty
string is written as `00 00 00 00` and nothing else. -/
theorem Encode_writes_null_mark :
    writeString (List.replicate 4294967295 0) [] =
        (.ok (), [0xff, 0xff, 0xff, 0xff] ++ List.replicate 4294967295 0) ∧
      Encode (.haltTx { Id := List.replicate 4294967295 0, AutoTxOnly := false }) [] =
        (.ok (), [0xAD, 0xBC, 0xCB, 0xDA] ++ [0, 0, 0, 2] ++ [0, 0, 0, 8] ++
          [0xff, 0xff, 0xff, 0xff] ++ List.replicate 4294967295 0 ++ [0]) ∧
      ∀ w : List Byte, writeString [] w = (.ok (), w ++ [0, 0, 0, 0]) := by
  have hlen : putBE 4 (List.replicate 4294967295 (0 : Byte)).length =
      [0xff, 0xff, 0xff, 0xff] := by
    rw [List.length_replicate]
    decide
  refine ⟨?_, ?_, fun w => rfl⟩
  · rw [writeString_eq, str, hlen, List.nil_append]
  · have h := encodeHaltTx_eq { Id := List.replicate 4294967295 0, AutoTxOnly := false } []
    have hm : putBE 4 MagicNumber = [0xAD, 0xBC, 0xCB, 0xDA] := by decide
    have h2 : putBE 4 2 = [0, 0, 0, 2] := by decide
    have h8 : putBE 4 8 = [0, 0, 0, 8] := by decide
    have hb : boolByte false = 0 := rfl
    rw [hm, h2, h8, str, hlen, hb, List.nil_append] at h
    simp only [Encode, h, List.append_assoc]

/-! ## Claims about message layouts -/

/-- C8: the frame `magic ++ u32(schema) ++ u32(2) ++ str(Id) ++ byte(New) ++
u32(Time) ++ i32(SNR) ++ f64(DeltaTime) ++ u32(DeltaFrequency) ++ str(Mode) ++
str(Message) ++ byte(LowConfidence) ++ byte(OffAir)`, big-endian and without
padding, with strings shorter than `2^32 - 1` bytes and `DeltaTime` given by
its 64 bits, parses to the Decode message with exactly the fields laid out. -/
theorem ParsePacket_decode_layout (schema : Nat) (m : DecodeMessage) (hfit : m.StringsFit)
    (hr : m.InRange) :
    ParsePacket (putBE 4 MagicNumber ++ putBE 4 schema ++ putBE 4 2 ++ str m.Id ++
        [boolByte m.New] ++ putBE 4 m.Time ++ putBE 4 (ofInt32 m.SNR) ++ putBE 8 m.DeltaTime ++
        putBE 4 m.DeltaFrequency ++ str m.Mode ++ str m.Message ++
        [boolByte m.LowConfidence] ++ [boolByte m.OffAir]) = .ok (.decode m) := by
  obtain ⟨h1, h2, h3, h4, h5⟩ := hr
  have h := Decode_decodeFrame (fun _ => false) schema m hfit []
  simp only [decodeFrame, wstr, Bool.false_eq_true, false_and, if_false,
    List.append_nil] at h
  rw [ParsePacket, h, Nat.mod_eq_of_lt h1, Nat.mod_eq_of_lt h4, Nat.mod_eq_of_lt h5,
    toInt32_ofInt32 m.SNR h2 h3]

theorem ParsePacket_decode_layout_witness :
    sampleDecode.StringsFit ∧ sampleDecode.InRange ∧
      ParsePacket [0xAD, 0xBC, 0xCB, 0xDA, 0, 0, 0, 2, 0, 0, 0, 2,
        0, 0, 0, 6, 0x57, 0x53, 0x4A, 0x54, 0x2D, 0x58, 1, 0x02, 0x93, 0x2E, 0x00,
        0xFF, 0xFF, 0xFF, 0xF6, 0x3F, 0xC9, 0x99, 0x99, 0x99, 0x99, 0x99, 0x9A,
        0, 0, 0x05, 0xDC, 0, 0, 0, 3, 0x46, 0x54, 0x38,
        0, 0, 0, 13, 0x43, 0x51, 0x20, 0x54, 0x45, 0x53, 0x54, 0x20, 0x4B, 0x31, 0x41, 0x42,
        0x43, 0, 0] = .ok (.decode sampleDecode) ∧
      sampleDecode.SNR = -10 ∧ sampleDecode.Time = 43200000 ∧
      putBE 4 (ofInt32 (-10)) = [0xFF, 0xFF, 0xFF, 0xF6] ∧
      putBE 4 43200000 = [0x02, 0x93, 0x2E, 0x00] :=
  ⟨by decide, by decide, ParsePacket_decode_layout 2 sampleDecode (by decide) (by decide),
    rfl, rfl, by decide, by decide⟩

/-- C9: a frame with tag 1 whose body is the 21 fields DialFrequency(u64),
Mode, DXCall, Report, TxMode (strings), TxEnabled, Transmitting, Decoding
(one byte each), RxDF(u32), TxDF(u32), DECall, DEGrid, DXGrid (strings),
TxWatchdog(byte), SubMode(string), FastMode(byte), SpecialOpMode(u8),
FrequencyTolerance(u32), TRPeriod(u32), ConfigName, TxMessage (strings), in
that order, big-endian and without padding, parses to the Status message with
exactly the fields laid out; and no buffer shorter than 86 bytes parses to a
Status message. -/
theorem ParsePacket_status_layout (schema : Nat) (m : StatusMessage) (hfit : m.StringsFit)
    (hr : m.InRange) :
    ParsePacket (putBE 4 MagicNumber ++ putBE 4 schema ++ putBE 4 1 ++ str m.Id ++
        putBE 8 m.DialFrequency ++ str m.Mode ++ str m.DXCall ++ str m.Report ++
        str m.TxMode ++ [boolByte m.TxEnabled] ++ [boolByte m.Transmitting] ++
        [boolByte m.Decoding] ++ putBE 4 m.RxDF ++ putBE 4 m.TxDF ++ str m.DECall ++
        str m.DEGrid ++ str m.DXGrid ++ [boolByte m.TxWatchdog] ++ str m.SubMode ++
        [boolByte m.FastMode] ++ [byteOf m.SpecialOpMode] ++ putBE 4 m.FrequencyTolerance ++
        putBE 4 m.TRPeriod ++ str m.ConfigName ++ str m.TxMessage) = .ok (.status m) ∧
      ∀ (b : List Byte) (m' : StatusMessage), b.length < 86 →
        ParsePacket b ≠ .ok (.status m') := by
  constructor
  · obtain ⟨h1, h2, h3, h4, h5, h6⟩ := hr
    have h := Decode_statusFrame (fun _ => false) schema m hfit []
    simp only [statusFrame, wstr, Bool.false_eq_true, false_and, if_false,
      List.append_nil, putBE_one] at h
    rw [ParsePacket, h, Nat.mod_eq_of_lt h1, Nat.mod_eq_of_lt h2, Nat.mod_eq_of_lt h3,
      Nat.mod_eq_of_lt h4, Nat.mod_eq_of_lt h5, Nat.mod_eq_of_lt h6]
  · intro b m' hlt hok
    have hD : Decode b = (.ok (.status m'), (Decode b).2) := Prod.ext hok rfl
    have := Decode_status_length b m' _ hD
    omega

theorem ParsePacket_status_layout_witness :
    sampleStatus.StringsFit ∧ sampleStatus.InRange ∧
      ParsePacket [0xAD, 0xBC, 0xCB, 0xDA, 0, 0, 0, 3, 0, 0, 0, 1, 0, 0, 0, 1, 0x57,
        0, 0, 0, 0, 0, 0xD6, 0xC0, 0x90, 0, 0, 0, 3, 0x46, 0x54, 0x38, 0, 0, 0, 2, 0x4B, 0x31,
        0, 0, 0, 0, 0, 0, 0, 3, 0x46, 0x54, 0x38, 1, 0, 1, 0, 0, 0x05, 0xDC, 0, 0, 0x04, 0xB0,
        0, 0, 0, 2, 0x57, 0x31, 0, 0, 0, 2, 0x46, 0x4E, 0, 0, 0, 0, 0, 0, 0, 0, 0, 0, 0,
        0xFF, 0xFF, 0xFF, 0xFF, 0, 0, 0, 15, 0, 0, 0, 1, 0x44, 0, 0, 0, 0] =
        .ok (.status sampleStatus) :=
  ⟨by decide, by decide,
    (ParsePacket_status_layout 3 sampleStatus (by decide) (by decide)).1⟩

/-- C10: for a Reply message whose strings are shorter than `2^32 - 1` bytes,
`Encode` succeeds and appends exactly `AD BC CB DA ++ 00 00 00 02 ++
00 00 00 04 ++ str(Id) ++ u32(Time) ++ i32(SNR) ++ f64(DeltaTime) ++
u32(DeltaFreq) ++ str(Mode) ++ str(Message) ++ byte(LowConf) ++
byte(Modifiers)`, that is `46 + len(Id) + len(Mode) + len(Message)` bytes,
where the four length bytes of each `str(s)` are the length of `s`. -/
theorem Encode_reply_bytes (m : ReplyMessage) (hfit : m.StringsFit) (w : List Byte) :
    Encode (.reply m) w =
        (.ok (), w ++ ([0xAD, 0xBC, 0xCB, 0xDA] ++ [0, 0, 0, 2] ++ [0, 0, 0, 4] ++ str m.Id ++
          putBE 4 m.Time ++ putBE 4 (ofInt32 m.SNR) ++ putBE 8 m.DeltaTime ++
          putBE 4 m.DeltaFreq ++ str m.Mode ++ str m.Message ++ [boolByte m.LowConf] ++
          [byteOf m.Modifiers])) ∧
      ([0xAD, 0xBC, 0xCB, 0xDA] ++ [0, 0, 0, 2] ++ [0, 0, 0, 4] ++ str m.Id ++
          putBE 4 m.Time ++ putBE 4 (ofInt32 m.SNR) ++ putBE 8 m.DeltaTime ++
          putBE 4 m.DeltaFreq ++ str m.Mode ++ str m.Message ++ [boolByte m.LowConf] ++
          [byteOf m.Modifiers]).length =
        46 + m.Id.length + m.Mode.length + m.Message.length ∧
      beNat ((str m.Id).take 4) = m.Id.length ∧
      beNat ((str m.Mode).take 4) = m.Mode.length ∧
      beNat ((str m.Message).take 4) = m.Message.length := by
  have hpre : ∀ s : List Byte, Fits s → beNat ((str s).take 4) = s.length := by
    intro s hs
    unfold str
    rw [List.take_append_of_le_length (by rw [length_putBE]),
      List.take_of_length_le (by rw [length_putBE]), beNat_putBE]
    exact Nat.mod_eq_of_lt (by unfold Fits at hs; omega)
  refine ⟨?_, ?_, hpre _ hfit.1, hpre _ hfit.2.1, hpre _ hfit.2.2⟩
  · have h := encodeReply_eq m w
    have hm : putBE 4 MagicNumber = [0xAD, 0xBC, 0xCB, 0xDA] := by decide
    have h2 : putBE 4 2 = [0, 0, 0, 2] := by decide
    have h4 : putBE 4 4 = [0, 0, 0, 4] := by decide
    rw [hm, h2, h4, putBE_one] at h
    simp only [Encode, h, List.append_assoc]
  · simp only [List.length_append, length_putBE, List.length_cons, List.length_nil, str]
    omega

theorem Encode_reply_bytes_witness :
    sampleReply.StringsFit ∧
      Encode (.reply sampleReply) [] =
        (.ok (), [0xAD, 0xBC, 0xCB, 0xDA, 0, 0, 0, 2, 0, 0, 0, 4, 0, 0, 0, 3, 0x57, 0x45, 0x42,
          0x02, 0x93, 0x2E, 0x00, 0xFF, 0xFF, 0xFF, 0xF6,
          0x3F, 0xC9, 0x99, 0x99, 0x99, 0x99, 0x99, 0x9A, 0, 0, 0x05, 0xDC,
          0, 0, 0, 3, 0x46, 0x54, 0x38, 0, 0, 0, 0, 1, 2]) :=
  ⟨by decide, (Encode_reply_bytes sampleReply (by decide) []).1⟩

/-! ## Claims about boolean fields, the schema version and trailing bytes -/

theorem str_eq_wstr (s : List Byte) : str s = wstr false s := by
  simp [wstr]

/-- C11: every boolean field is one byte and decodes to true exactly when that
byte is not zero. In a Decode frame and in a Status frame, with any byte
whatever at each boolean field, the parsed message has `b ≠ 0` at that field
and every other field as laid out; and the encoder writes true as 01 and false
as 00. -/
theorem ParsePacket_bool_fields (schema : Nat) (m : DecodeMessage) (s : StatusMessage)
    (hm : m.StringsFit) (hmr : m.InRange) (hs : s.StringsFit) (hsr : s.InRange)
    (new lowConfidence offAir txEnabled transmitting decoding txWatchdog fastMode : Byte) :
    ParsePacket (putBE 4 MagicNumber ++ putBE 4 schema ++ putBE 4 2 ++ str m.Id ++
        [new] ++ putBE 4 m.Time ++ putBE 4 (ofInt32 m.SNR) ++ putBE 8 m.DeltaTime ++
        putBE 4 m.DeltaFrequency ++ str m.Mode ++ str m.Message ++
        [lowConfidence] ++ [offAir]) =
        .ok (.decode { m with New := decide (new ≠ 0),
                              LowConfidence := decide (lowConfidence ≠ 0),
                              OffAir := decide (offAir ≠ 0) }) ∧
      ParsePacket (putBE 4 MagicNumber ++ putBE 4 schema ++ putBE 4 1 ++ str s.Id ++
        putBE 8 s.DialFrequency ++ str s.Mode ++ str s.DXCall ++ str s.Report ++
        str s.TxMode ++ [txEnabled] ++ [transmitting] ++ [decoding] ++ putBE 4 s.RxDF ++
        putBE 4 s.TxDF ++ str s.DECall ++ str s.DEGrid ++ str s.DXGrid ++ [txWatchdog] ++
        str s.SubMode ++ [fastMode] ++ [byteOf s.SpecialOpMode] ++
        putBE 4 s.FrequencyTolerance ++ putBE 4 s.TRPeriod ++ str s.ConfigName ++
        str s.TxMessage) =
        .ok (.status { s with TxEnabled := decide (txEnabled ≠ 0),
                              Transmitting := decide (transmitting ≠ 0),
                              Decoding := decide (decoding ≠ 0),
                              TxWatchdog := decide (txWatchdog ≠ 0),
                              FastMode := decide (fastMode ≠ 0) }) ∧
      (∀ (b : Bool) (w : List Byte), writeBool b w = (.ok (), w ++ [if b then 1 else 0])) ∧
      (∀ (b : Bool) (t : List Byte), readBool ((if b then 1 else 0) :: t) = (.ok b, t)) := by
  refine ⟨?_, ?_, fun _ _ => rfl, ?_⟩
  · obtain ⟨h0, h1, h2⟩ := hm
    obtain ⟨r1, r2, r3, r4, r5⟩ := hmr
    rw [ParsePacket]
    simp only [str_eq_wstr, List.append_assoc, List.singleton_append, List.cons_append,
      List.nil_append]
    rw [Decode_header _ _ _ _ _ (length_putBE 4 schema) (length_putBE 4 2)
      (readString_wstr false m.Id h0 _)]
    have htag : beNat (putBE 4 2) = MsgDecode := by decide
    rw [if_neg (by rw [htag]; decide), if_neg (by rw [htag]; decide), if_pos htag,
      bind_ok (decodeDecode_layout _ _ _ _ _ _ _ _ _ _ _ _ _ h1 h2 []),
      Nat.mod_eq_of_lt r1, Nat.mod_eq_of_lt r4, Nat.mod_eq_of_lt r5,
      toInt32_ofInt32 m.SNR r2 r3]
    rfl
  · obtain ⟨h0, h1, h2, h3, h4, h5, h6, h7, h8, h9, h10⟩ := hs
    obtain ⟨r1, r2, r3, r4, r5, r6⟩ := hsr
    rw [ParsePacket]
    simp only [str_eq_wstr, List.append_assoc, List.singleton_append, List.cons_append,
      List.nil_append]
    rw [Decode_header _ _ _ _ _ (length_putBE 4 schema) (length_putBE 4 1)
      (readString_wstr false s.Id h0 _)]
    have htag : beNat (putBE 4 1) = MsgStatus := by decide
    have hb : (byteOf s.SpecialOpMode).val = s.SpecialOpMode := Nat.mod_eq_of_lt (by omega)
    have e : wstr false s.TxMessage = wstr false s.TxMessage ++ [] := (List.append_nil _).symm
    rw [e, if_neg (by rw [htag]; decide), if_pos htag,
      bind_ok (decodeStatus_layout _ _ _ _ _ _ _ _ _ _ _ _ _ _ _ _ _ _ _ _ _ _ _ _ _ _ _ _ _
        _ _ _ _ h1 h2 h3 h4 h5 h6 h7 h8 h9 h10 []),
      Nat.mod_eq_of_lt r1, Nat.mod_eq_of_lt r2, Nat.mod_eq_of_lt r3,
      Nat.mod_eq_of_lt r5, Nat.mod_eq_of_lt r6, hb]
    rfl
  · intro b t
    cases b <;> simp [readBool_cons]

theorem ParsePacket_bool_fields_witness :
    sampleDecode.StringsFit ∧ sampleDecode.InRange ∧ sampleStatus.StringsFit ∧
      sampleStatus.InRange ∧
      ParsePacket [0xAD, 0xBC, 0xCB, 0xDA, 0, 0, 0, 2, 0, 0, 0, 2,
        0, 0, 0, 6, 0x57, 0x53, 0x4A, 0x54, 0x2D, 0x58, 0xFF, 0x02, 0x93, 0x2E, 0x00,
        0xFF, 0xFF, 0xFF, 0xF6, 0x3F, 0xC9, 0x99, 0x99, 0x99, 0x99, 0x99, 0x9A,
        0, 0, 0x05, 0xDC, 0, 0, 0, 3, 0x46, 0x54, 0x38,
        0, 0, 0, 13, 0x43, 0x51, 0x20, 0x54, 0x45, 0x53, 0x54, 0x20, 0x4B, 0x31, 0x41, 0x42,
        0x43, 0, 2] =
        .ok (.decode { sampleDecode with New := true, LowConfidence := false,
                                         OffAir := true }) :=
  ⟨by decide, by decide, by decide, by decide,
    (ParsePacket_bool_fields 2 sampleDecode sampleStatus (by decide) (by decide) (by decide)
      (by decide) 0xFF 0 2 0 0 0 0 0).1⟩

theorem readUint32_short (s : List Byte) (h : s.length < 4) :
    readUint32 s = (.error (if s = [] then .EOF else .ErrUnexpectedEOF), []) := by
  by_cases hs : s = []
  · subst hs
    rfl
  · simp [readUint32, bind_apply, readFull, Nat.not_le.mpr h, hs]

theorem readUint32_inv {b r : List Byte} {v : Nat} (h : readUint32 b = (.ok v, r)) :
    4 ≤ b.length ∧ v = beNat (b.take 4) ∧ r = b.drop 4 := by
  unfold readUint32 at h
  obtain ⟨bs, s', h1, h2⟩ := bind_ok_inv h
  unfold readFull at h1
  split at h1
  · rename_i hn
    obtain ⟨rfl, rfl⟩ : b.take 4 = bs ∧ b.drop 4 = s' := by simpa using h1
    rw [pure_apply] at h2
    obtain ⟨rfl, rfl⟩ : beNat (b.take 4) = v ∧ b.drop 4 = r := by simpa using h2
    exact ⟨hn, rfl, rfl⟩
  · split at h1 <;> simp at h1

/-- A datagram that `Decode` accepts starts with the magic, and the message
returned is of the variant named by the type tag in bytes 8..11, which is
Heartbeat, Status or Decode. -/
theorem Decode_ok_type (b : List Byte) (m : Message) (r : List Byte)
    (h : Decode b = (.ok m, r)) :
    12 ≤ b.length ∧ beNat (b.take 4) = MagicNumber ∧
      m.Type = beNat ((b.drop 8).take 4) ∧
      ((∃ x, m = .heartbeat x) ∨ (∃ x, m = .status x) ∨ (∃ x, m = .decode x)) := by
  unfold Decode at h
  obtain ⟨magic, s1, h1, h⟩ := bind_ok_inv h
  obtain ⟨l1, rfl, rfl⟩ := readUint32_inv h1
  split at h
  · simp [Op.fail] at h
  rename_i hmagic
  obtain ⟨sch, s2, h2, h⟩ := bind_ok_inv h
  obtain ⟨l2, rfl, rfl⟩ := readUint32_inv h2
  obtain ⟨msgType, s3, h3, h⟩ := bind_ok_inv h
  obtain ⟨l3, rfl, rfl⟩ := readUint32_inv h3
  obtain ⟨id, s4, -, h⟩ := bind_ok_inv h
  have hlen : 12 ≤ b.length := by
    simp only [List.length_drop] at l2 l3
    omega
  have htag : beNat (List.take 4 (List.drop 4 (List.drop 4 b))) =
      beNat ((b.drop 8).take 4) := by
    rw [List.drop_drop]
  refine ⟨hlen, not_not.mp hmagic, ?_⟩
  split at h
  · rename_i ht
    obtain ⟨v, s5, -, h⟩ := bind_ok_inv h
    rw [pure_apply] at h
    obtain ⟨rfl, -⟩ : Message.heartbeat v = m ∧ s5 = r := by simpa using h
    exact ⟨by rw [← htag, ht]; rfl, Or.inl ⟨v, rfl⟩⟩
  · split at h
    · rename_i ht
      obtain ⟨v, s5, -, h⟩ := bind_ok_inv h
      rw [pure_apply] at h
      obtain ⟨rfl, -⟩ : Message.status v = m ∧ s5 = r := by simpa using h
      exact ⟨by rw [← htag, ht]; rfl, Or.inr (Or.inl ⟨v, rfl⟩)⟩
    · split at h
      · rename_i ht
        obtain ⟨v, s5, -, h⟩ := bind_ok_inv h
        rw [pure_apply] at h
        obtain ⟨rfl, -⟩ : Message.decode v = m ∧ s5 = r := by simpa using h
        exact ⟨by rw [← htag, ht]; rfl, Or.inr (Or.inr ⟨v, rfl⟩)⟩
      · simp [Op.fail] at h

theorem ParsePacket_ok_type (b : List Byte) (m : Message) (h : ParsePacket b = .ok m) :
    12 ≤ b.length ∧ beNat (b.take 4) = MagicNumber ∧
      m.Type = beNat ((b.drop 8).take 4) ∧
      ((∃ x, m = .heartbeat x) ∨ (∃ x, m = .status x) ∨ (∃ x, m = .decode x)) :=
  Decode_ok_type b m (Decode b).2 (Prod.ext h rfl)

/-- The result of `Decode` does not depend on the four bytes of the schema
version. -/
theorem Decode_schema (pre sch sch' rest : List Byte) (hpre : pre.length = 4)
    (h : sch.length = 4) (h' : sch'.length = 4) :
    (Decode (pre ++ (sch ++ rest))).1 = (Decode (pre ++ (sch' ++ rest))).1 := by
  unfold Decode
  rw [bind_ok (readUint32_bytes hpre _), bind_ok (readUint32_bytes hpre _)]
  by_cases hm : beNat pre ≠ MagicNumber
  · rw [if_pos hm]
    rfl
  · rw [if_neg hm, bind_ok (readUint32_bytes h _), bind_ok (readUint32_bytes h' _)]
    rfl

/-- C18: the schema version does not influence decoding. Two buffers that
differ only in bytes 4..7 (all four of them, or the part of them present in a
buffer shorter than 8 bytes) make `ParsePacket` return the same message or the
same error; in particular a Heartbeat, Status or Decode frame is accepted with
any schema version and parses to the same message with each. -/
theorem ParsePacket_schema_irrelevant (pre sch sch' rest : List Byte) (hpre : pre.length = 4)
    (hlen : sch.length = sch'.length) (h4 : sch.length ≤ 4)
    (hshort : sch.length < 4 → rest = []) :
    ParsePacket (pre ++ sch ++ rest) = ParsePacket (pre ++ sch' ++ rest) ∧
      (∀ (nulls : Nat → Bool) (schema schema' : Nat) (m : HeartbeatMessage), m.StringsFit →
        ParsePacket (heartbeatFrame nulls schema m) =
            ParsePacket (heartbeatFrame nulls schema' m) ∧
          ∃ m', ParsePacket (heartbeatFrame nulls schema m) = .ok m') ∧
      (∀ (nulls : Nat → Bool) (schema schema' : Nat) (m : StatusMessage), m.StringsFit →
        ParsePacket (statusFrame nulls schema m) =
            ParsePacket (statusFrame nulls schema' m) ∧
          ∃ m', ParsePacket (statusFrame nulls schema m) = .ok m') ∧
      (∀ (nulls : Nat → Bool) (schema schema' : Nat) (m : DecodeMessage), m.StringsFit →
        ParsePacket (decodeFrame nulls schema m) =
            ParsePacket (decodeFrame nulls schema' m) ∧
          ∃ m', ParsePacket (decodeFrame nulls schema m) = .ok m') := by
  refine ⟨?_, ?_, ?_, ?_⟩
  · simp only [ParsePacket, List.append_assoc]
    by_cases hs : sch.length = 4
    · exact Decode_schema pre sch sch' rest hpre hs (hlen ▸ hs)
    · have hlt : sch.length < 4 := by omega
      have hlt' : sch'.length < 4 := by omega
      rw [hshort hlt, List.append_nil, List.append_nil]
      unfold Decode
      rw [bind_ok (readUint32_bytes hpre _), bind_ok (readUint32_bytes hpre _)]
      by_cases hm : beNat pre ≠ MagicNumber
      · rw [if_pos hm]
        rfl
      · have he : (sch = []) ↔ (sch' = []) := by
          rw [← List.length_eq_zero, ← List.length_eq_zero, hlen]
        rw [if_neg hm, bind_error (readUint32_short sch hlt),
          bind_error (readUint32_short sch' hlt')]
        by_cases hnil : sch = []
        · rw [if_pos hnil, if_pos (he.mp hnil)]
        · rw [if_neg hnil, if_neg (fun h => hnil (he.mpr h))]
  · intro nulls schema schema' m h
    have e1 := Decode_heartbeatFrame nulls schema m h []
    have e2 := Decode_heartbeatFrame nulls schema' m h []
    rw [List.append_nil] at e1 e2
    exact ⟨by rw [ParsePacket, ParsePacket, e1, e2], ⟨_, by rw [ParsePacket, e1]⟩⟩
  · intro nulls schema schema' m h
    have e1 := Decode_statusFrame nulls schema m h []
    have e2 := Decode_statusFrame nulls schema' m h []
    rw [List.append_nil] at e1 e2
    exact ⟨by rw [ParsePacket, ParsePacket, e1, e2], ⟨_, by rw [ParsePacket, e1]⟩⟩
  · intro nulls schema schema' m h
    have e1 := Decode_decodeFrame nulls schema m h []
    have e2 := Decode_decodeFrame nulls schema' m h []
    rw [List.append_nil] at e1 e2
    exact ⟨by rw [ParsePacket, ParsePacket, e1, e2], ⟨_, by rw [ParsePacket, e1]⟩⟩

theorem ParsePacket_schema_irrelevant_witness :
    ([0xAD, 0xBC, 0xCB, 0xDA] : List Byte).length = 4 ∧
      ParsePacket ([0xAD, 0xBC, 0xCB, 0xDA] ++ [0, 0, 0, 2] ++
          [0, 0, 0, 0, 0, 0, 0, 1, 0x41, 0, 0, 0, 3, 0, 0, 0, 0, 0xFF, 0xFF, 0xFF, 0xFF]) =
        ParsePacket ([0xAD, 0xBC, 0xCB, 0xDA] ++ [0x12, 0x34, 0x56, 0x78] ++
          [0, 0, 0, 0, 0, 0, 0, 1, 0x41, 0, 0, 0, 3, 0, 0, 0, 0, 0xFF, 0xFF, 0xFF, 0xFF]) ∧
      ParsePacket ([0xAD, 0xBC, 0xCB, 0xDA] ++ [0x12, 0x34, 0x56, 0x78] ++
          [0, 0, 0, 0, 0, 0, 0, 1, 0x41, 0, 0, 0, 3, 0, 0, 0, 0, 0xFF, 0xFF, 0xFF, 0xFF]) =
        .ok (.heartbeat { Id := [0x41], MaxSchema := 3, Version := [], Revision := [] }) :=
  ⟨rfl,
    (ParsePacket_schema_irrelevant [0xAD, 0xBC, 0xCB, 0xDA] [0, 0, 0, 2]
      [0x12, 0x34, 0x56, 0x78]
      [0, 0, 0, 0, 0, 0, 0, 1, 0x41, 0, 0, 0, 3, 0, 0, 0, 0, 0xFF, 0xFF, 0xFF, 0xFF]
      rfl rfl (by decide) (by decide)).1,
    by decide⟩

/-- C19: for a Heartbeat message whose strings are shorter than `2^32 - 1`
bytes (and whose MaxSchema is a `uint32`), `ParsePacket` applied to the bytes
that `Encode` writes succeeds and returns the same Heartbeat message, empty
strings included; and Heartbeat is the only variant that `Encode` accepts and
`ParsePacket` can return. -/
theorem Heartbeat_roundtrip (h : HeartbeatMessage) (hfit : h.StringsFit)
    (hmax : h.MaxSchema < 2 ^ 32) :
    (∃ bytes, Encode (.heartbeat h) [] = (.ok (), bytes) ∧
        ParsePacket bytes = .ok (.heartbeat h)) ∧
      (∀ (msg m' : Message) (w b : List Byte), (Encode msg w).1 = .ok () →
        ParsePacket b = .ok m' → m'.Type = msg.Type → ∃ x, msg = .heartbeat x) ∧
      (∀ (b : List Byte) (m' : Message), ParsePacket b = .ok m' →
        (∀ x, m' ≠ .reply x) ∧ (∀ x, m' ≠ .haltTx x)) := by
  refine ⟨⟨_, encodeHeartbeat_eq h [], ?_⟩, ?_, ?_⟩
  · have e := Decode_heartbeatFrame (fun _ => false) 2 h hfit []
    simp only [heartbeatFrame, wstr, Bool.false_eq_true, false_and, if_false,
      List.append_nil] at e
    rw [ParsePacket, List.nil_append, e, Nat.mod_eq_of_lt hmax]
  · intro msg m' w b hE hP hT
    obtain ⟨-, -, -, hv⟩ := ParsePacket_ok_type b m' hP
    cases msg with
    | heartbeat x => exact ⟨x, rfl⟩
    | status x => simp [Encode, Op.fail] at hE
    | decode x => simp [Encode, Op.fail] at hE
    | reply x =>
      rcases hv with ⟨y, rfl⟩ | ⟨y, rfl⟩ | ⟨y, rfl⟩ <;> simp [Message.Type, MsgHeartbeat,
        MsgStatus, MsgDecode, MsgReply] at hT
    | haltTx x =>
      rcases hv with ⟨y, rfl⟩ | ⟨y, rfl⟩ | ⟨y, rfl⟩ <;> simp [Message.Type, MsgHeartbeat,
        MsgStatus, MsgDecode, MsgHaltTx] at hT
  · intro b m' hP
    obtain ⟨-, -, -, hv⟩ := ParsePacket_ok_type b m' hP
    constructor
    · intro x hx
      rcases hv with ⟨y, rfl⟩ | ⟨y, rfl⟩ | ⟨y, rfl⟩ <;> simp at hx
    · intro x hx
      rcases hv with ⟨y, rfl⟩ | ⟨y, rfl⟩ | ⟨y, rfl⟩ <;> simp at hx

theorem Heartbeat_roundtrip_witness :
    sampleHeartbeat.StringsFit ∧ sampleHeartbeat.MaxSchema < 2 ^ 32 ∧
      ∃ bytes, Encode (.heartbeat sampleHeartbeat) [] = (.ok (), bytes) ∧
        ParsePacket bytes = .ok (.heartbeat sampleHeartbeat) :=
  ⟨by decide, by decide, (Heartbeat_roundtrip sampleHeartbeat (by decide) (by decide)).1⟩

/-- C20: trailing bytes are ignored. When `ParsePacket` succeeds on `b` with
message `m`, it succeeds with the same message on `b` followed by any bytes,
and it has read the same number of bytes. -/
theorem ParsePacket_trailing (b : List Byte) (m : Message) (h : ParsePacket b = .ok m)
    (t : List Byte) :
    ParsePacket (b ++ t) = .ok m ∧ consumed (b ++ t) = consumed b := by
  have hr : Decode b = (.ok m, (Decode b).2) := Prod.ext h rfl
  obtain ⟨c, hb, hext, -⟩ := Framed_Decode b m _ hr
  have e1 : Decode (b ++ t) = (.ok m, (Decode b).2 ++ t) := by
    conv_lhs => rw [hb, List.append_assoc]
    exact hext _
  refine ⟨by rw [ParsePacket, e1], ?_⟩
  rw [consumed, consumed, e1]
  have hl : b.length = c.length + (Decode b).2.length := by
    conv_lhs => rw [hb]
    exact List.length_append _ _
  simp only [List.length_append]
  omega

theorem ParsePacket_trailing_witness :
    ParsePacket [0xAD, 0xBC, 0xCB, 0xDA, 0, 0, 0, 2, 0, 0, 0, 0, 0, 0, 0, 1, 0x41,
        0, 0, 0, 3, 0, 0, 0, 3, 0x32, 0x2E, 0x36, 0xFF, 0xFF, 0xFF, 0xFF] =
        .ok (.heartbeat sampleHeartbeat) ∧
      ParsePacket ([0xAD, 0xBC, 0xCB, 0xDA, 0, 0, 0, 2, 0, 0, 0, 0, 0, 0, 0, 1, 0x41,
        0, 0, 0, 3, 0, 0, 0, 3, 0x32, 0x2E, 0x36, 0xFF, 0xFF, 0xFF, 0xFF] ++
        [0xDE, 0xAD, 0xBE, 0xEF]) = .ok (.heartbeat sampleHeartbeat) :=
  ⟨by decide,
    (ParsePacket_trailing
      [0xAD, 0xBC, 0xCB, 0xDA, 0, 0, 0, 2, 0, 0, 0, 0, 0, 0, 0, 1, 0x41,
        0, 0, 0, 3, 0, 0, 0, 3, 0x32, 0x2E, 0x36, 0xFF, 0xFF, 0xFF, 0xFF]
      (.heartbeat sampleHeartbeat) (by decide) [0xDE, 0xAD, 0xBE, 0xEF]).1⟩

/-! ## The bridge: helper lemmas -/

theorem hubRun_fold {μ : Type} (fails : Conn → Bool) (message : μ) (l cur : List Conn)
    (log : List (Conn × μ)) :
    l.foldl
        (fun (acc : List Conn × List (Conn × μ)) client =>
          if fails client then (acc.1.erase client, acc.2 ++ [(client, message)])
          else (acc.1, acc.2 ++ [(client, message)]))
        (cur, log) =
      (l.foldl (fun cur client => if fails client then cur.erase client else cur) cur,
        log ++ l.map fun c => (c, message)) := by
  induction l generalizing cur log with
  | nil => simp
  | cons c l ih =>
    simp only [List.foldl_cons, List.map_cons]
    by_cases hc : fails c = true
    · simp only [hc, if_true]
      rw [ih]
      simp
    · simp only [hc, Bool.false_eq_true, if_false]
      rw [ih]
      simp

theorem hubRun_snd {μ : Type} (fails : Conn → Bool) (message : μ) (clients : List Conn) :
    (hubRun fails message clients).2 = clients.map fun c => (c, message) := by
  unfold hubRun
  rw [hubRun_fold]
  simp

theorem hubRun_fst {μ : Type} (fails : Conn → Bool) (message : μ) (clients : List Conn) :
    (hubRun fails message clients).1 =
      clients.foldl (fun cur client => if fails client then cur.erase client else cur)
        clients := by
  unfold hubRun
  rw [hubRun_fold]

theorem mem_of_mem_foldl_erase (fails : Conn → Bool) (l cur : List Conn) (c : Conn)
    (h : c ∈ l.foldl (fun cur client => if fails client then cur.erase client else cur) cur) :
    c ∈ cur := by
  induction l generalizing cur with
  | nil => exact h
  | cons x l ih =>
    simp only [List.foldl_cons] at h
    have := ih _ h
    split at this
    · exact List.mem_of_mem_erase this
    · exact this

theorem mem_foldl_erase_of_ok (fails : Conn → Bool) (l cur : List Conn) (c : Conn)
    (hc : c ∈ cur) (hf : fails c = false) :
    c ∈ l.foldl (fun cur client => if fails client then cur.erase client else cur) cur := by
  induction l generalizing cur with
  | nil => exact hc
  | cons x l ih =>
    simp only [List.foldl_cons]
    apply ih
    split
    · rename_i hx
      have hne : c ≠ x := by
        intro hEq
        rw [hEq, hx] at hf
        exact Bool.noConfusion hf
      exact (List.mem_erase_of_ne hne).mpr hc
    · exact hc

theorem foldl_erase_nodup (fails : Conn → Bool) (l cur : List Conn) (hn : cur.Nodup) :
    (l.foldl (fun cur client => if fails client then cur.erase client else cur) cur).Nodup ∧
      ∀ c, c ∈ l.foldl (fun cur client => if fails client then cur.erase client else cur) cur ↔
        c ∈ cur ∧ ¬(c ∈ l ∧ fails c = true) := by
  induction l generalizing cur with
  | nil => simp [hn]
  | cons x l ih =>
    simp only [List.foldl_cons]
    by_cases hx : fails x = true
    · simp only [hx, if_true]
      obtain ⟨h1, h2⟩ := ih (cur.erase x) (hn.erase x)
      refine ⟨h1, fun c => ?_⟩
      rw [h2, hn.mem_erase_iff]
      constructor
      · rintro ⟨⟨hne, hc⟩, hnot⟩
        refine ⟨hc, ?_⟩
        rintro ⟨hmem, hf⟩
        rcases List.mem_cons.mp hmem with rfl | hl
        · exact hne rfl
        · exact hnot ⟨hl, hf⟩
      · rintro ⟨hc, hnot⟩
        refine ⟨⟨?_, hc⟩, fun ⟨hl, hf⟩ => hnot ⟨List.mem_cons_of_mem _ hl, hf⟩⟩
        rintro rfl
        exact hnot ⟨List.mem_cons_self _ _, hx⟩
    · simp only [hx, Bool.false_eq_true, if_false]
      obtain ⟨h1, h2⟩ := ih cur hn
      refine ⟨h1, fun c => ?_⟩
      rw [h2]
      constructor
      · rintro ⟨hc, hnot⟩
        refine ⟨hc, ?_⟩
        rintro ⟨hmem, hf⟩
        rcases List.mem_cons.mp hmem with rfl | hl
        · exact hx hf
        · exact hnot ⟨hl, hf⟩
      · rintro ⟨hc, hnot⟩
        exact ⟨hc, fun ⟨hl, hf⟩ => hnot ⟨List.mem_cons_of_mem _ hl, hf⟩⟩

/-- The message built from a command carries the sender id of the bridge. -/
theorem commandMessage_id (cmd : Command) (msg : Message) (h : commandMessage cmd = some msg) :
    (∃ r : ReplyMessage, msg = .reply r ∧ r.Id = ascii "WSJTX-WEB") ∨
      (∃ x : HaltTxMessage, msg = .haltTx x ∧ x.Id = ascii "WSJTX-WEB") := by
  unfold commandMessage at h
  split at h
  · obtain ⟨d, -, rfl⟩ := Option.map_eq_some'.mp h
    exact Or.inl ⟨_, rfl, rfl⟩
  · split at h
    · obtain ⟨d, -, rfl⟩ := Option.map_eq_some'.mp h
      exact Or.inr ⟨_, rfl, rfl⟩
    · simp at h

theorem handleMessage_eq (st : Bridge) (message : Option JSON) :
    handleMessage st message = (st, []) ∨
      ∃ cmd targetAddr msg buf,
        unmarshalStruct storeCommand { Type_ := [], Data := none } message = some cmd ∧
        st.lastAddr = some targetAddr ∧ commandMessage cmd = some msg ∧
        Encode msg [] = (.ok (), buf) ∧ handleMessage st message = (st, [(buf, targetAddr)]) := by
  cases h1 : unmarshalStruct storeCommand { Type_ := [], Data := none } message with
  | none => exact Or.inl (by simp only [handleMessage, h1])
  | some cmd =>
    cases h2 : st.lastAddr with
    | none => exact Or.inl (by simp only [handleMessage, h1, h2])
    | some targetAddr =>
      cases h3 : commandMessage cmd with
      | none => exact Or.inl (by simp only [handleMessage, h1, h2, h3])
      | some msg =>
        rcases h4 : Encode msg [] with ⟨res, buf⟩
        cases res with
        | error e => exact Or.inl (by simp only [handleMessage, h1, h2, h3, h4])
        | ok u =>
          exact Or.inr ⟨cmd, targetAddr, msg, buf, rfl, rfl, h3, h4,
            by simp only [handleMessage, h1, h2, h3, h4]⟩

/-! ## Claims about the bridge -/

/-- C12: while the last-peer address is unset, the command handler sends
nothing on the UDP socket and leaves the peer address and the session set as
they were, whatever the WebSocket message is: a valid reply or halt command,
an unknown type, or a text that is not valid JSON. -/
theorem handleMessage_no_peer (clients : List Conn) (message : Option JSON) :
    handleMessage { clients := clients, lastAddr := none } message =
      ({ clients := clients, lastAddr := none }, []) := by
  rcases handleMessage_eq { clients := clients, lastAddr := none } message with h | h
  · exact h
  · obtain ⟨_, _, _, _, -, h2, -⟩ := h
    simp at h2

/-- C13: every datagram that the handler sends for a browser command goes to
the last-seen peer address and carries the sender id `WSJTX-WEB`: its bytes
12..24 are `00 00 00 09` and the nine bytes of the id, whatever the data
object of the command holds; at most one datagram is sent and the shared
state is left as it was. For a halt command whose data gives AutoTxOnly = a
the datagram is the 26 bytes `AD BC CB DA 00 00 00 02 00 00 00 08 00 00 00 09
"WSJTX-WEB"` followed by 01 or 00 according to `a`. -/
theorem handleMessage_sender_id (st : Bridge) (message : Option JSON) :
    (handleMessage st message).1 = st ∧
      (handleMessage st message).2.length ≤ 1 ∧
      (∀ d ∈ (handleMessage st message).2,
        st.lastAddr = some d.2 ∧
          (d.1.drop 12).take 13 =
            [0, 0, 0, 9, 0x57, 0x53, 0x4A, 0x54, 0x58, 0x2D, 0x57, 0x45, 0x42]) ∧
      (∀ (cmd : Command) (a : Bool) (addr : UDPAddr),
        unmarshalStruct storeCommand { Type_ := [], Data := none } message = some cmd →
        cmd.Type_ = ascii "halt" →
        unmarshalStruct storeHalt { AutoTxOnly := false } cmd.Data =
          some { AutoTxOnly := a } →
        st.lastAddr = some addr →
        (handleMessage st message).2 =
          [([0xAD, 0xBC, 0xCB, 0xDA, 0, 0, 0, 2, 0, 0, 0, 8, 0, 0, 0, 9,
              0x57, 0x53, 0x4A, 0x54, 0x58, 0x2D, 0x57, 0x45, 0x42, if a then 1 else 0],
            addr)]) := by
  have hid : str (ascii "WSJTX-WEB") =
      [0, 0, 0, 9, 0x57, 0x53, 0x4A, 0x54, 0x58, 0x2D, 0x57, 0x45, 0x42] := by decide
  have hm : putBE 4 MagicNumber = [0xAD, 0xBC, 0xCB, 0xDA] := by decide
  have h2 : putBE 4 2 = [0, 0, 0, 2] := by decide
  have h4 : putBE 4 4 = [0, 0, 0, 4] := by decide
  have h8 : putBE 4 8 = [0, 0, 0, 8] := by decide
  refine ⟨?_, ?_, ?_, ?_⟩
  · rcases handleMessage_eq st message with h | ⟨_, _, _, _, -, -, -, -, h⟩ <;> rw [h]
  · rcases handleMessage_eq st message with h | ⟨_, _, _, _, -, -, -, -, h⟩ <;> rw [h] <;> simp
  · intro d hd
    rcases handleMessage_eq st message with h | ⟨cmd, addr, msg, buf, -, hl, hc, hE, h⟩
    · rw [h] at hd
      simp at hd
    · rw [h] at hd
      obtain rfl : d = (buf, addr) := by simpa using hd
      refine ⟨hl, ?_⟩
      rcases commandMessage_id cmd msg hc with ⟨r, rfl, hr⟩ | ⟨x, rfl, hx⟩
      · have e := encodeReply_eq r []
        rw [Encode] at hE
        rw [hE, hr, hid, hm, h2, h4] at e
        obtain ⟨-, rfl⟩ := Prod.mk.inj e
        rfl
      · have e := encodeHaltTx_eq x []
        rw [Encode] at hE
        rw [hE, hx, hid, hm, h2, h8] at e
        obtain ⟨-, rfl⟩ := Prod.mk.inj e
        rfl
  · intro cmd a addr hcmd htype hdata haddr
    have hne : ascii "halt" ≠ ascii "reply" := by decide
    have hc : commandMessage cmd =
        some (.haltTx { Id := ascii "WSJTX-WEB", AutoTxOnly := a }) := by
      unfold commandMessage
      rw [htype, if_neg hne, if_pos rfl, hdata]
      rfl
    have hE : Encode (.haltTx { Id := ascii "WSJTX-WEB", AutoTxOnly := a }) [] =
        (.ok (), [0xAD, 0xBC, 0xCB, 0xDA, 0, 0, 0, 2, 0, 0, 0, 8, 0, 0, 0, 9,
          0x57, 0x53, 0x4A, 0x54, 0x58, 0x2D, 0x57, 0x45, 0x42, if a then 1 else 0]) := by
      rw [Encode, encodeHaltTx_eq, hid, hm, h2, h8]
      cases a <;> rfl
    simp only [handleMessage, hcmd, haddr, hc, hE]

theorem handleMessage_sender_id_witness :
    unmarshalStruct storeCommand { Type_ := [], Data := none } (some sampleHaltCommand) =
        some { Type_ := ascii "halt", Data := some sampleHaltData } ∧
      unmarshalStruct storeHalt { AutoTxOnly := false } (some sampleHaltData) =
        some { AutoTxOnly := true } ∧
      (handleMessage sampleBridge (some sampleHaltCommand)).2 =
        [([0xAD, 0xBC, 0xCB, 0xDA, 0, 0, 0, 2, 0, 0, 0, 8, 0, 0, 0, 9,
            0x57, 0x53, 0x4A, 0x54, 0x58, 0x2D, 0x57, 0x45, 0x42, 1], samplePeer)] :=
  ⟨rfl, rfl,
    (handleMessage_sender_id sampleBridge (some sampleHaltCommand)).2.2.2
      { Type_ := ascii "halt", Data := some sampleHaltData } true samplePeer rfl rfl rfl rfl⟩

/-- C15: peer capture is unconditional and last-write-wins. After the UDP loop
has handled a datagram received from address `a`, the peer slot is `a`,
whether or not the datagram decodes and whatever the slot held before; the
UDP loop itself leaves the session set as it is, and the fan-out of the event,
if there is one, only drops sessions whose write fails. -/
theorem processDatagram_peer (fails : Conn → Bool) (st : Bridge) (data : List Byte)
    (a : UDPAddr) :
    (processDatagram fails st data a).1.lastAddr = some a ∧
      (udpReceive st data a).1 = { clients := st.clients, lastAddr := some a } ∧
      (∀ c, c ∈ (processDatagram fails st data a).1.clients → c ∈ st.clients) ∧
      (∀ c, c ∈ st.clients → fails c = false →
        c ∈ (processDatagram fails st data a).1.clients) ∧
      (∀ e, ParsePacket data = .error e →
        processDatagram fails st data a = ({ clients := st.clients, lastAddr := some a }, [])) := by
  have hu : (udpReceive st data a).1 = { clients := st.clients, lastAddr := some a } := by
    unfold udpReceive
    cases ParsePacket data with
    | error e => rfl
    | ok msg =>
      simp only []
      split <;> rfl
  have hp : (processDatagram fails st data a).1.lastAddr = some a ∧
      ((processDatagram fails st data a).1.clients = st.clients ∨
        ∃ w : Envelope, (processDatagram fails st data a).1.clients =
          (hubRun fails w st.clients).1) := by
    unfold processDatagram
    rcases hr : udpReceive st data a with ⟨st', o⟩
    have hst : st' = { clients := st.clients, lastAddr := some a } := by
      rw [← hu, hr]
    subst hst
    cases o with
    | none => exact ⟨rfl, Or.inl rfl⟩
    | some w => exact ⟨rfl, Or.inr ⟨w, rfl⟩⟩
  refine ⟨hp.1, hu, ?_, ?_, ?_⟩
  · intro c hc
    rcases hp.2 with h | ⟨w, h⟩
    · rw [h] at hc
      exact hc
    · rw [h, hubRun_fst] at hc
      exact mem_of_mem_foldl_erase fails _ _ c hc
  · intro c hc hf
    rcases hp.2 with h | ⟨w, h⟩
    · rw [h]
      exact hc
    · rw [h, hubRun_fst]
      exact mem_foldl_erase_of_ok fails _ _ c hc hf
  · intro e he
    simp only [processDatagram, udpReceive, he]

theorem processDatagram_peer_witness :
    ParsePacket [1, 2, 3] = .error .ErrUnexpectedEOF ∧
      processDatagram (fun _ => true) { clients := [1, 2], lastAddr := none } [1, 2, 3]
          samplePeer =
        ({ clients := [1, 2], lastAddr := some samplePeer }, []) :=
  ⟨by decide,
    (processDatagram_peer (fun _ => true) { clients := [1, 2], lastAddr := none } [1, 2, 3]
      samplePeer).2.2.2.2 .ErrUnexpectedEOF (by decide)⟩

/-- C17: the fan-out of one broadcast is best-effort per session. For a
session set `S` (the keys of the map, in the order of the `range`) and any
choice of the sessions whose write fails, one round of `Hub.run` makes exactly
one write of the message to every session of `S`, failing or not, and the
session set afterwards is exactly `S` without the sessions whose write
failed. -/
theorem hubRun_fan_out {μ : Type} (fails : Conn → Bool) (message : μ) (S : List Conn)
    (hS : S.Nodup) :
    (hubRun fails message S).2 = S.map (fun c => (c, message)) ∧
      (∀ c ∈ S, ((hubRun fails message S).2.map Prod.fst).count c = 1) ∧
      (∀ c, c ∉ S → ((hubRun fails message S).2.map Prod.fst).count c = 0) ∧
      (∀ c, c ∈ (hubRun fails message S).1 ↔ c ∈ S ∧ fails c = false) ∧
      (hubRun fails message S).1.Nodup := by
  have hw : (hubRun fails message S).2.map Prod.fst = S := by
    rw [hubRun_snd, List.map_map]
    exact List.map_id _
  obtain ⟨hn, hmem⟩ := foldl_erase_nodup fails S S hS
  refine ⟨hubRun_snd fails message S, ?_, ?_, ?_, ?_⟩
  · intro c hc
    rw [hw]
    exact List.count_eq_one_of_mem hS hc
  · intro c hc
    rw [hw]
    exact List.count_eq_zero_of_not_mem hc
  · intro c
    rw [hubRun_fst, hmem]
    constructor
    · rintro ⟨hc, hnot⟩
      refine ⟨hc, ?_⟩
      cases hf : fails c with
      | false => rfl
      | true => exact absurd ⟨hc, hf⟩ hnot
    · rintro ⟨hc, hf⟩
      refine ⟨hc, ?_⟩
      rintro ⟨-, ht⟩
      rw [hf] at ht
      exact Bool.noConfusion ht
  · rw [hubRun_fst]
    exact hn

theorem hubRun_fan_out_witness :
    ([3, 1, 2] : List Conn).Nodup ∧
      hubRun (fun c => decide (c = 1)) ([0x7B, 0x7D] : List Byte) [3, 1, 2] =
        ([3, 2], [(3, [0x7B, 0x7D]), (1, [0x7B, 0x7D]), (2, [0x7B, 0x7D])]) := by
  have h := hubRun_fan_out (fun c => decide (c = 1)) ([0x7B, 0x7D] : List Byte) [3, 1, 2]
    (by decide)
  exact ⟨by decide, Prod.ext (by decide) h.1⟩

/-- C14, the claim fails: a reply command whose data object names the
frequency offset `DeltaFreq` and the low-confidence flag `LowConf`, as the
Reply schema does, is accepted, but the frame sent has DeltaFreq 0 (bytes
41..44) and LowConf 00 (byte 69) and not the values 1500 and true given under
those names. -/
theorem handleMessage_reply_schema_names :
    (handleMessage sampleBridge (some (sampleReplyCommand "DeltaFreq" "LowConf"))).2 =
        [([0xAD, 0xBC, 0xCB, 0xDA, 0, 0, 0, 2, 0, 0, 0, 4, 0, 0, 0, 9,
            0x57, 0x53, 0x4A, 0x54, 0x58, 0x2D, 0x57, 0x45, 0x42, 0x02, 0x93, 0x2E, 0x00,
            0xFF, 0xFF, 0xFF, 0xF6, 0x3F, 0xC9, 0x99, 0x99, 0x99, 0x99, 0x99, 0x9A,
            0, 0, 0, 0, 0, 0, 0, 3, 0x46, 0x54, 0x38,
            0, 0, 0, 13, 0x43, 0x51, 0x20, 0x54, 0x45, 0x53, 0x54, 0x20, 0x4B, 0x31, 0x41,
            0x42, 0x43, 0, 0], samplePeer)] ∧
      (handleMessage sampleBridge (some (sampleReplyCommand "DeltaFreq" "LowConf"))).2 =
        [((Encode (.reply { sampleReplySent with DeltaFreq := 0, LowConf := false }) []).2,
          samplePeer)] ∧
      (handleMessage sampleBridge (some (sampleReplyCommand "DeltaFreq" "LowConf"))).2 ≠
        [((Encode (.reply sampleReplySent) []).2, samplePeer)] := by
  refine ⟨by decide, by decide, by decide⟩

theorem asUint_some {bits : Nat} {n : JNumber} {t : Nat}
    (h : asUint bits (.number n) = some t) : ∃ fl, n = { int := some (false, t), float := fl } := by
  obtain ⟨i, fl⟩ := n
  cases i with
  | none => simp [asUint] at h
  | some p =>
    obtain ⟨neg, k⟩ := p
    cases neg with
    | true => simp [asUint] at h
    | false =>
      simp only [asUint] at h
      split at h
      · obtain rfl : k = t := by simpa using h
        exact ⟨fl, rfl⟩
      · simp at h

/-- C14, amended: a reply command's data fields are read under the names
Time, SNR, DeltaTime, DeltaFrequency, Mode, Message, LowConfidence and
Modifiers. For a reply command received while a peer is known whose data
object gives a value that fits its field under each of these names, the Reply
frame sent to the peer encodes exactly these values, with the sender id of the
bridge; a member named `DeltaFreq` or `LowConf` is ignored. -/
theorem handleMessage_reply_fields (st : Bridge) (addr : UDPAddr)
    (nt ns nd nf nk : JNumber) (t d f k : Nat) (s : Int) (m g : List Byte) (c : Bool)
    (hst : st.lastAddr = some addr)
    (ht : asUint 32 (.number nt) = some t) (hs : asInt32 (.number ns) = some s)
    (hd : asFloat64 (.number nd) = some d) (hf : asUint 32 (.number nf) = some f)
    (hk : asUint 8 (.number nk) = some k) :
    handleMessage st
        (some (.object [("type", .string (ascii "reply")),
          ("data", .object [("Time", .number nt), ("SNR", .number ns),
            ("DeltaTime", .number nd), ("DeltaFrequency", .number nf), ("Mode", .string m),
            ("Message", .string g), ("LowConfidence", .bool c),
            ("Modifiers", .number nk)])])) =
        (st, [((Encode (.reply
            { Id := ascii "WSJTX-WEB", Time := t, SNR := s, DeltaTime := d, DeltaFreq := f,
              Mode := m, Message := g, LowConf := c, Modifiers := k }) []).2, addr)]) ∧
      (∀ (x : ReplyData) (v : JSON),
        storeReply x "DeltaFreq" v = some x ∧ storeReply x "LowConf" v = some x) := by
  constructor
  · have c1 : findField ["type", "data"] "type" = some "type" := by decide
    have c2 : findField ["type", "data"] "data" = some "data" := by decide
    have f1 : findField replyNames "Time" = some "Time" := by decide
    have f2 : findField replyNames "SNR" = some "SNR" := by decide
    have f3 : findField replyNames "DeltaTime" = some "DeltaTime" := by decide
    have f4 : findField replyNames "DeltaFrequency" = some "DeltaFrequency" := by decide
    have f5 : findField replyNames "Mode" = some "Mode" := by decide
    have f6 : findField replyNames "Message" = some "Message" := by decide
    have f7 : findField replyNames "LowConfidence" = some "LowConfidence" := by decide
    have f8 : findField replyNames "Modifiers" = some "Modifiers" := by decide
    have hcmd : unmarshalStruct storeCommand { Type_ := [], Data := none }
        (some (.object [("type", .string (ascii "reply")),
          ("data", .object [("Time", .number nt), ("SNR", .number ns),
            ("DeltaTime", .number nd), ("DeltaFrequency", .number nf), ("Mode", .string m),
            ("Message", .string g), ("LowConfidence", .bool c),
            ("Modifiers", .number nk)])])) =
        some { Type_ := ascii "reply",
               Data := some (.object [("Time", .number nt), ("SNR", .number ns),
                 ("DeltaTime", .number nd), ("DeltaFrequency", .number nf),
                 ("Mode", .string m), ("Message", .string g), ("LowConfidence", .bool c),
                 ("Modifiers", .number nk)]) } := by
      simp [unmarshalStruct, storeCommand, c1, c2]
    have hdata : unmarshalStruct storeReply
        { Time := 0, SNR := 0, DeltaTime := 0, DeltaFreq := 0, Mode := [], Message := [],
          LowConf := false, Modifiers := 0 }
        (some (.object [("Time", .number nt), ("SNR", .number ns),
          ("DeltaTime", .number nd), ("DeltaFrequency", .number nf), ("Mode", .string m),
          ("Message", .string g), ("LowConfidence", .bool c), ("Modifiers", .number nk)])) =
        some { Time := t, SNR := s, DeltaTime := d, DeltaFreq := f, Mode := m, Message := g,
               LowConf := c, Modifiers := k } := by
      simp [unmarshalStruct, storeReply, f1, f2, f3, f4, f5, f6, f7, f8, ht, hs, hd, hf, hk,
        asString, asBool]
    have hc : commandMessage
        { Type_ := ascii "reply",
          Data := some (.object [("Time", .number nt), ("SNR", .number ns),
            ("DeltaTime", .number nd), ("DeltaFrequency", .number nf),
            ("Mode", .string m), ("Message", .string g), ("LowConfidence", .bool c),
            ("Modifiers", .number nk)]) } =
        some (.reply
          { Id := ascii "WSJTX-WEB", Time := t, SNR := s, DeltaTime := d, DeltaFreq := f,
            Mode := m, Message := g, LowConf := c, Modifiers := k }) := by
      unfold commandMessage
      rw [if_pos rfl, hdata]
      rfl
    have hE := encodeReply_eq
      { Id := ascii "WSJTX-WEB", Time := t, SNR := s, DeltaTime := d, DeltaFreq := f,
        Mode := m, Message := g, LowConf := c, Modifiers := k } []
    simp only [handleMessage, hcmd, hst, hc, Encode, hE]
  · intro x v
    have g1 : findField replyNames "DeltaFreq" = none := by decide
    have g2 : findField replyNames "LowConf" = none := by decide
    constructor
    · unfold storeReply
      rw [g1]
      cases v <;> rfl
    · unfold storeReply
      rw [g2]
      cases v <;> rfl

theorem handleMessage_reply_fields_witness :
    sampleBridge.lastAddr = some samplePeer ∧
      handleMessage sampleBridge (some (sampleReplyCommand "DeltaFrequency" "LowConfidence")) =
        (sampleBridge, [((Encode (.reply sampleReplySent) []).2, samplePeer)]) :=
  ⟨rfl,
    (handleMessage_reply_fields sampleBridge samplePeer
      { int := some (false, 43200000), float := some 0x4184997000000000 }
      { int := some (true, 10), float := some 0xC024000000000000 }
      { int := none, float := some 0x3FC999999999999A }
      { int := some (false, 1500), float := some 0x4097700000000000 }
      { int := some (false, 0), float := some 0 }
      43200000 0x3FC999999999999A 1500 0 (-10) [0x46, 0x54, 0x38]
      [0x43, 0x51, 0x20, 0x54, 0x45, 0x53, 0x54, 0x20, 0x4B, 0x31, 0x41, 0x42, 0x43] true
      rfl (by decide) (by decide) rfl (by decide) (by decide)).1⟩

/-- C16, the claim fails: the datagram `sampleNaNDatagram` is a well-formed
Decode frame on which `ParsePacket` succeeds, but its DeltaTime is a NaN,
`json.Marshal` of the wrapper returns an error, and nothing is broadcast. -/
theorem udpReceive_nan_no_broadcast :
    ParsePacket sampleNaNDatagram = .ok (.decode sampleNaNDecode) ∧
      (udpReceive sampleBridge sampleNaNDatagram samplePeer).2 = none ∧
      (processDatagram (fun _ => false) sampleBridge sampleNaNDatagram samplePeer).2 = [] := by
  refine ⟨by decide, by decide, by decide⟩

/-- C16, amended: an inbound datagram produces a broadcast event if and only
if `ParsePacket` succeeds on it and the message can be serialised, which fails
only for a Decode message whose DeltaTime is a NaN or an infinity. When it
does, one wrapper is sent, whose type is the decimal string of the wire type
tag in bytes 8..11 of the datagram, one of "0", "1" and "2", and agrees with
the variant of the message it carries ("0" Heartbeat, "1" Status, "2" Decode).
A datagram that fails to decode emits nothing to any session. -/
theorem udpReceive_broadcast (st : Bridge) (data : List Byte) (a : UDPAddr) :
    ((udpReceive st data a).2.isSome = true ↔
        ∃ m, ParsePacket data = .ok m ∧ marshalFails m = false) ∧
      (∀ m, ParsePacket data = .ok m →
        (marshalFails m = true ↔ ∃ x, m = .decode x ∧ isNaNOrInf x.DeltaTime = true)) ∧
      (∀ w, (udpReceive st data a).2 = some w →
        ParsePacket data = .ok w.Data ∧
          w.Type_ = toString (beNat ((data.drop 8).take 4)) ∧
          w.Type_ = toString w.Data.Type ∧
          ((w.Type_ = "0" ∧ ∃ x, w.Data = .heartbeat x) ∨
            (w.Type_ = "1" ∧ ∃ x, w.Data = .status x) ∨
            (w.Type_ = "2" ∧ ∃ x, w.Data = .decode x))) ∧
      (∀ e, ParsePacket data = .error e →
        (udpReceive st data a).2 = none ∧
          ∀ fails, (processDatagram fails st data a).2 = []) := by
  refine ⟨?_, ?_, ?_, ?_⟩
  · unfold udpReceive
    cases hP : ParsePacket data with
    | error e => simp
    | ok msg =>
      cases hM : marshalFails msg <;> simp [hM]
  · intro m hP
    obtain ⟨-, -, -, hv⟩ := ParsePacket_ok_type data m hP
    rcases hv with ⟨x, rfl⟩ | ⟨x, rfl⟩ | ⟨x, rfl⟩ <;> simp [marshalFails]
  · intro w hw
    cases hP : ParsePacket data with
    | error e =>
      simp [udpReceive, hP] at hw
    | ok msg =>
      cases hM : marshalFails msg with
      | true =>
        simp [udpReceive, hP, hM] at hw
      | false =>
        simp only [udpReceive, hP, hM] at hw
        obtain rfl : ({ Type_ := toString msg.Type, Data := msg } : Envelope) = w := by
          simpa using hw
        obtain ⟨-, -, ht, hv⟩ := ParsePacket_ok_type data msg hP
        have h0 : toString MsgHeartbeat = "0" := by decide
        have h1 : toString MsgStatus = "1" := by decide
        have h2 : toString MsgDecode = "2" := by decide
        refine ⟨rfl, by rw [← ht], rfl, ?_⟩
        rcases hv with ⟨x, rfl⟩ | ⟨x, rfl⟩ | ⟨x, rfl⟩
        · exact Or.inl ⟨h0, x, rfl⟩
        · exact Or.inr (Or.inl ⟨h1, x, rfl⟩)
        · exact Or.inr (Or.inr ⟨h2, x, rfl⟩)
  · intro e he
    refine ⟨by simp only [udpReceive, he], fun fails => ?_⟩
    simp only [processDatagram, udpReceive, he]

theorem udpReceive_broadcast_witness :
    (udpReceive sampleBridge
        [0xAD, 0xBC, 0xCB, 0xDA, 0, 0, 0, 2, 0, 0, 0, 0, 0, 0, 0, 1, 0x41,
          0, 0, 0, 3, 0, 0, 0, 3, 0x32, 0x2E, 0x36, 0xFF, 0xFF, 0xFF, 0xFF] samplePeer).2 =
        some { Type_ := "0", Data := .heartbeat sampleHeartbeat } ∧
      ParsePacket [0xAD, 0xBC, 0xCB, 0xDA, 0, 0, 0, 2, 0, 0, 0, 0, 0, 0, 0, 1, 0x41,
          0, 0, 0, 3, 0, 0, 0, 3, 0x32, 0x2E, 0x36, 0xFF, 0xFF, 0xFF, 0xFF] =
        .ok (.heartbeat sampleHeartbeat) :=
  ⟨by decide,
    ((udpReceive_broadcast sampleBridge
      [0xAD, 0xBC, 0xCB, 0xDA, 0, 0, 0, 2, 0, 0, 0, 0, 0, 0, 0, 1, 0x41,
        0, 0, 0, 3, 0, 0, 0, 3, 0x32, 0x2E, 0x36, 0xFF, 0xFF, 0xFF, 0xFF] samplePeer).2.2.1
      { Type_ := "0", Data := .heartbeat sampleHeartbeat } (by decide)).1⟩

end Wsjtx
